import Mathlib

/-!
Verification development for the `@alertnew/recipes` catalog-driven
content-extraction engine (TypeScript). Each definition below is a shallow
embedding of one function of the repository, translated statement by
statement from the source:

* `src/helpers.ts` — normalization helpers (`parsePrice`,
  `parseAbbreviatedNumber`, `cleanText`, `extractDomain`,
  `decodeHtmlEntities`);
* `src/validate.ts` — `validateRecipe`, `validateAllRecipes`,
  `testExtractFunction`;
* `src/index.ts` — `getRecipeForUrl`, `toClientRecipe`;
* `src/recipes/amazon.ts` — the Amazon extraction routine (its regex
  probes abstracted as an input record, see `AmazonPage`);
* `src/recipes/ebay.ts` — the JSON-LD loop of the eBay extraction routine.

Modelling conventions:

* JavaScript numbers are modelled by `JNum`: exact rationals plus `nan`
  and the two infinities. Every number produced by the embedded code is a
  finite decimal well inside the double range, so exact rationals are a
  faithful idealization (no rounding ties are ever relevant).
* JavaScript values (the shapes travelling through `JSON.parse` results
  and extraction maps) are modelled by `JVal`, including the `undefined`
  sentinel, so present-but-undefined object fields are representable.
* An extraction result object is an insertion-ordered association list
  `ExtractedData`; property assignment (`dset`) overwrites in place.
* Member access on `null`/`undefined` raises `TypeError` in JavaScript;
  embedded code that can hit this path runs in `Except String`.
* Regex probes over the HTML payload (for example the Amazon
  `productTitle` match) are abstracted as record fields of `AmazonPage`:
  each field holds exactly the captured group (post `extractFirst`
  trimming where the source applies it). `break`-once scan loops are
  embedded as first-match selection functions.
* String lengths, `toLowerCase` and whitespace classes are treated at the
  ASCII level (all inputs relevant to the claims are ASCII).
-/

set_option maxRecDepth 8192

namespace Recipes

/-! ## JavaScript numbers -/

/-- JavaScript number model: NaN, the infinities, or an exact rational. -/
inductive JNum where
  | nan
  | posInf
  | negInf
  | fin (q : ℚ)
  deriving DecidableEq, Repr

/-- JavaScript truthiness of a number: `NaN` and `0` are falsy. -/
def JNum.truthy : JNum → Bool
  | .nan => false
  | .fin q => q ≠ 0
  | _ => true

/-- Multiplication of a JavaScript number by a positive natural constant
(the `* 1000`, `* 1000000`, `* 1000000000` of `parseAbbreviatedNumber`). -/
def JNum.mulNat : JNum → ℕ → JNum
  | .nan, _ => .nan
  | .posInf, _ => .posInf
  | .negInf, _ => .negInf
  | .fin q, k => .fin (q * k)

/-- JavaScript `Math.round`: `floor(x + 0.5)` on finite values, identity on
`NaN` and infinities. -/
def JNum.jround : JNum → JNum
  | .nan => .nan
  | .posInf => .posInf
  | .negInf => .negInf
  | .fin q => .fin (⌊q + 1/2⌋ : ℤ)

/-! ## Characters and strings -/

/-- ASCII decimal digit test. -/
def isDigitCh (c : Char) : Bool := '0' ≤ c && c ≤ '9'

/-- JavaScript whitespace (`\s`, `trim`) restricted to its ASCII members. -/
def isSpaceCh (c : Char) : Bool :=
  c = ' ' || c = '\t' || c = '\n' || c = '\r' || c = '\x0b' || c = '\x0c'

/-- ASCII lower-casing of one character (JS `toLowerCase` on ASCII input). -/
def lowerCh (c : Char) : Char :=
  if 'A' ≤ c && c ≤ 'Z' then Char.ofNat (c.toNat + 32) else c

/-- ASCII lower-casing of a string. -/
def toLowerStr (s : String) : String := ⟨s.data.map lowerCh⟩

/-- JavaScript `String.prototype.trim` (ASCII whitespace). -/
def jsTrim (s : String) : String :=
  ⟨(s.data.dropWhile (fun c => isSpaceCh c)).reverse.dropWhile
      (fun c => isSpaceCh c) |>.reverse⟩

/-- Keep only the characters satisfying `p`; embeds the
`replace(/[^...]/g, '')` deletion idiom. -/
def filterChars (p : Char → Bool) (s : String) : String := ⟨s.data.filter p⟩

/-- Last-character test; embeds `String.prototype.endsWith` for a
one-character suffix. -/
def endsWithCh (s : String) (c : Char) : Bool :=
  match s.data.reverse with
  | [] => false
  | d :: _ => d = c

/-- First occurrence replacement over character lists: JavaScript
`String.prototype.replace` with a plain-string pattern replaces only the
first occurrence. -/
def replaceFirstAux (pat rep : List Char) : List Char → List Char
  | [] => []
  | c :: rest =>
      if pat.isPrefixOf (c :: rest) then rep ++ (c :: rest).drop pat.length
      else c :: replaceFirstAux pat rep rest

/-- JavaScript `s.replace(pat, rep)` for a plain-string `pat` (first
occurrence only). -/
def replaceFirstStr (s pat rep : String) : String :=
  ⟨replaceFirstAux pat.data rep.data s.data⟩

/-- Substring containment test, embeds `String.prototype.includes`. -/
def containsSub (s sub : String) : Bool :=
  go s.data
where
  go : List Char → Bool
    | [] => sub.data.isPrefixOf []
    | c :: rest => sub.data.isPrefixOf (c :: rest) || go rest

/-! ## JavaScript numeric string parsing -/

/-- Numeric value of a digit list read in base 10. -/
def digitsToNat (cs : List Char) : ℕ :=
  cs.foldl (fun acc c => acc * 10 + (c.toNat - '0'.toNat)) 0

/-- Fraction value of the digit list read after a decimal point. -/
def fracToRat (cs : List Char) : ℚ :=
  (digitsToNat cs : ℚ) / ((10 : ℚ) ^ cs.length)

/-- Decimal-literal part of JavaScript `parseFloat`, applied after sign
processing: longest prefix `digits [. digits] [e|E [sign] digits]`, or
the literal `Infinity`; `NaN` when no prefix parses. -/
def parseFloatCore (cs : List Char) : JNum :=
  if ("Infinity".data).isPrefixOf cs then .posInf
  else
    let intPart := cs.takeWhile isDigitCh
    let rest1 := cs.dropWhile isDigitCh
    let fracPart :=
      match rest1 with
      | '.' :: more => more.takeWhile isDigitCh
      | _ => []
    let rest2 :=
      match rest1 with
      | '.' :: more => more.dropWhile isDigitCh
      | _ => rest1
    if intPart.isEmpty && fracPart.isEmpty then .nan
    else
      let mant : ℚ := (digitsToNat intPart : ℚ) + fracToRat fracPart
      let expo : ℤ :=
        match rest2 with
        | 'e' :: more => parseExpo more
        | 'E' :: more => parseExpo more
        | _ => 0
      .fin (mant * (10 : ℚ) ^ expo)
where
  parseExpo : List Char → ℤ
    | '+' :: ds => if (ds.takeWhile isDigitCh).isEmpty then 0
        else (digitsToNat (ds.takeWhile isDigitCh) : ℤ)
    | '-' :: ds => if (ds.takeWhile isDigitCh).isEmpty then 0
        else -(digitsToNat (ds.takeWhile isDigitCh) : ℤ)
    | ds => if (ds.takeWhile isDigitCh).isEmpty then 0
        else (digitsToNat (ds.takeWhile isDigitCh) : ℤ)

/-- JavaScript `parseFloat`: skip leading whitespace, optional sign, then
the longest decimal-literal prefix; `NaN` when nothing parses. -/
def jsParseFloat (s : String) : JNum :=
  let cs := s.data.dropWhile (fun c => isSpaceCh c)
  match cs with
  | '-' :: rest =>
      match parseFloatCore rest with
      | .fin q => .fin (-q)
      | .posInf => .negInf
      | n => n
  | '+' :: rest => parseFloatCore rest
  | _ => parseFloatCore cs

/-- JavaScript `parseInt(s, 10)`: skip leading whitespace, optional sign,
longest digit prefix; `NaN` when there is no digit. -/
def jsParseInt10 (s : String) : JNum :=
  let cs := s.data.dropWhile (fun c => isSpaceCh c)
  match cs with
  | '-' :: rest =>
      let ds := rest.takeWhile isDigitCh
      if ds.isEmpty then .nan else .fin (-(digitsToNat ds : ℚ))
  | '+' :: rest =>
      let ds := rest.takeWhile isDigitCh
      if ds.isEmpty then .nan else .fin (digitsToNat ds : ℚ)
  | _ =>
      let ds := cs.takeWhile isDigitCh
      if ds.isEmpty then .nan else .fin (digitsToNat ds : ℚ)

/-! ## Normalization helpers (`src/helpers.ts`) -/

/-- Embedding of `parsePrice` (`src/helpers.ts`). The argument models
`string | undefined | null` as `Option String`; the leading `if
(!priceStr)` also rejects the empty string. `replace(',', '.')` swaps only
the first comma; `isNaN(price) ? undefined : price` becomes the final
match. -/
def parsePrice (priceStr : Option String) : Option JNum :=
  match priceStr with
  | none => none
  | some s =>
      if s = "" then none
      else
        let cleaned := replaceFirstStr
          (filterChars (fun c => isDigitCh c || c = '.' || c = ',') s) "," "."
        match jsParseFloat cleaned with
        | .nan => none
        | n => some n

/-- Embedding of `parseAbbreviatedNumber` (`src/helpers.ts`):
lower-case and trim, then the `k`/`m`/`b` suffix cascade (each branch
deletes only the first occurrence of the suffix letter, as JavaScript
`replace` with a string pattern does), otherwise strip `[,.\s]` and
`parseInt(..., 10) || 0`. -/
def parseAbbreviatedNumber (str : String) : JNum :=
  let cleaned := toLowerStr (jsTrim str)
  if endsWithCh cleaned 'k' then
    (jsParseFloat (replaceFirstStr cleaned "k" "")).mulNat 1000 |>.jround
  else if endsWithCh cleaned 'm' then
    (jsParseFloat (replaceFirstStr cleaned "m" "")).mulNat 1000000 |>.jround
  else if endsWithCh cleaned 'b' then
    (jsParseFloat (replaceFirstStr cleaned "b" "")).mulNat 1000000000 |>.jround
  else
    let n := jsParseInt10
      (filterChars (fun c => !(c = ',' || c = '.' || isSpaceCh c)) cleaned)
    if n.truthy then n else .fin 0

/-- Dropping a prefix never lengthens a list (termination helper). -/
theorem dropWhileLenLe (p : Char → Bool) :
    ∀ l : List Char, (l.dropWhile p).length ≤ l.length := by
  intro l
  induction l with
  | nil => simp [List.dropWhile]
  | cons c rest ih =>
      by_cases h : p c = true
      · simpa [List.dropWhile, h] using Nat.le_succ_of_le ih
      · simp [List.dropWhile, h]

/-- Whitespace-run collapsing, embeds `text.replace(/\s+/g, ' ')`. -/
def collapseWs : List Char → List Char
  | [] => []
  | c :: rest =>
      if isSpaceCh c then ' ' :: collapseWs (rest.dropWhile (fun d => isSpaceCh d))
      else c :: collapseWs rest
termination_by cs => cs.length
decreasing_by
  · simp only [List.length_cons]
    exact Nat.lt_succ_of_le (dropWhileLenLe _ _)
  · simp

/-- Embedding of `cleanText` (`src/helpers.ts`). -/
def cleanText (text : String) : String := jsTrim ⟨collapseWs text.data⟩

/-- Modelled: the WHATWG `URL` constructor used by `extractDomain`. The
model accepts `scheme:...` with a letter-led scheme and, for inputs of the
`scheme://host...` shape, reports the host up to the first `/`, `?`, `#`
or `:` in lower case; any input without a well-formed scheme is a parse
failure (the constructor throws). This is only a stand-in for the
JavaScript builtin; no claim depends on its fine structure. -/
def urlHostname (u : String) : Option String :=
  match u.data with
  | [] => none
  | c :: rest =>
      if ('a' ≤ lowerCh c && lowerCh c ≤ 'z') then
        let schemeRest := rest.dropWhile (fun d =>
          ('a' ≤ lowerCh d && lowerCh d ≤ 'z') || isDigitCh d ||
            d = '+' || d = '-' || d = '.')
        match schemeRest with
        | ':' :: tail =>
            match tail with
            | '/' :: '/' :: hostRest =>
                some ⟨(hostRest.takeWhile (fun d =>
                  !(d = '/' || d = '?' || d = '#' || d = ':'))).map lowerCh⟩
            | _ => some ""
        | _ => none
      else none

/-- Embedding of `extractDomain` (`src/helpers.ts`): hostname of the
parsed URL with the first occurrence of `"www."` deleted; the `catch`
branch returns the empty string. -/
def extractDomain (url : String) : String :=
  match urlHostname url with
  | some h => replaceFirstStr h "www." ""
  | none => ""

/-! ## JavaScript values and extraction result objects -/

/-- JavaScript value model for JSON-parsed data and extraction results:
the `undefined` sentinel is a first-class value so that a
present-but-undefined object field is representable. -/
inductive JVal where
  | undefined
  | null
  | jbool (b : Bool)
  | num (n : JNum)
  | str (s : String)
  | arr (xs : List JVal)
  | obj (fs : List (String × JVal))
  deriving Repr

/-- JavaScript truthiness of a value. -/
def jtruthy : JVal → Bool
  | .undefined => false
  | .null => false
  | .jbool b => b
  | .num n => n.truthy
  | .str s => s ≠ ""
  | .arr _ => true
  | .obj _ => true

/-- Strict equality `v === "lit"` against a string literal. -/
def jeqStr (v : JVal) (lit : String) : Bool :=
  match v with
  | .str s => s = lit
  | _ => false

/-- JavaScript `a || b`: the left value when truthy, otherwise the right. -/
def jor (a b : JVal) : JVal := if jtruthy a then a else b

/-- First binding of a key in an object literal's field list. -/
def fieldLookup (fs : List (String × JVal)) (k : String) : JVal :=
  match fs.find? (fun kv => kv.1 = k) with
  | some kv => kv.2
  | none => .undefined

/-- Member access `v[k]`: throws `TypeError` on `null`/`undefined`,
reads the field on objects, and yields `undefined` on any other value
(primitives have no own properties of these names). -/
def jmem (v : JVal) (k : String) : Except String JVal :=
  match v with
  | .null => .error "TypeError"
  | .undefined => .error "TypeError"
  | .obj fs => .ok (fieldLookup fs k)
  | _ => .ok .undefined

/-- Optional chaining `v?.k`: `undefined` instead of a `TypeError` when
the base is `null`/`undefined`. -/
def jmemOpt (v : JVal) (k : String) : JVal :=
  match v with
  | .null => .undefined
  | .undefined => .undefined
  | .obj fs => fieldLookup fs k
  | _ => .undefined

/-- `Array.isArray`. -/
def isArr : JVal → Bool
  | .arr _ => true
  | _ => false

/-- Index access `v[0]` on a value already known to be an array
(`undefined` past the end). -/
def jidx0 : JVal → JVal
  | .arr (x :: _) => x
  | _ => .undefined

/-- Method call `v.includes(lit)`: substring test on strings, strict
element membership on arrays, `TypeError` otherwise. -/
def jincludes (v : JVal) (lit : String) : Except String Bool :=
  match v with
  | .str s => .ok (containsSub s lit)
  | .arr xs => .ok (xs.any (fun x => jeqStr x lit))
  | _ => .error "TypeError"

/-- Global `parseFloat` applied to an arbitrary value: JavaScript first
converts the argument to a string. Strings parse directly and numbers
round-trip exactly; every other shape stringifies to something unparsable
(`"true"`, `"null"`, `"undefined"`, `"[object Object]"`), hence `NaN`.
(A one-element array stringifies to its element; that corner is modelled
as `NaN`, no embedded call site feeds arrays to `parseFloat`.) -/
def jparseFloat : JVal → JNum
  | .str s => jsParseFloat s
  | .num n => n
  | _ => .nan

/-- Global `parseInt(v, 10)` applied to an arbitrary value, with the same
stringification convention as `jparseFloat`. A finite number stringifies
to its decimal form, so integer-valued numbers round-trip and fractional
ones truncate toward zero; `NaN`/infinities stringify to unparsable
words. -/
def jparseInt10 : JVal → JNum
  | .str s => jsParseInt10 s
  | .num (.fin q) => .fin (q.num / q.den : ℤ)
  | _ => .nan

/-- Extraction result object: an insertion-ordered association list, as
produced by `const data = {}` followed by property assignments. -/
abbrev ExtractedData := List (String × JVal)

/-- Test for the `undefined` sentinel (strict `=== undefined`). -/
def isUndefined : JVal → Bool
  | .undefined => true
  | _ => false

/-- Property read `data[k]`: `undefined` when the key is missing. -/
def dget (d : ExtractedData) (k : String) : JVal :=
  match d.find? (fun kv => kv.1 = k) with
  | some kv => kv.2
  | none => .undefined

/-- Property assignment `data[k] = v`: updates in place, appends when new. -/
def dset (d : ExtractedData) (k : String) (v : JVal) : ExtractedData :=
  match d with
  | [] => [(k, v)]
  | (k', v') :: rest => if k' = k then (k', v) :: rest else (k', v') :: dset rest k v

/-! ## `testExtractFunction` (`src/validate.ts`) -/

/-- Outcome of awaiting `recipe.extract(html, url)`: either the promise
rejected (carrying `Error.message` when the thrown value was an `Error`)
or it resolved to a value. -/
inductive ExtractOutcome where
  | throws (msg : Option String)
  | resolves (v : JVal)

/-- Guard `typeof data !== 'object' || data === null` of
`testExtractFunction`: only non-null objects (including arrays) pass. -/
def isObjectNonNull : JVal → Bool
  | .obj _ => true
  | .arr _ => true
  | _ => false

/-- `Object.entries`: own enumerable entries of an object, or the
index/value pairs of an array. -/
def entriesOf : JVal → List (String × JVal)
  | .obj fs => fs
  | .arr xs => (xs.enum.map (fun xi => (toString xi.1, xi.2)))
  | _ => []

/-- Result record of `testExtractFunction`. -/
structure TestResult where
  success : Bool
  data : Option (List (String × JVal)) := none
  error : Option String := none

/-- Embedding of `testExtractFunction` (`src/validate.ts`): a rejection is
captured into an error result, a non-object result or any entry whose
value is `undefined` is a failure, anything else is a success carrying the
data. -/
def testExtractFunction (outcome : ExtractOutcome) : TestResult :=
  match outcome with
  | .throws msg =>
      { success := false, error := some (msg.getD "Unknown error") }
  | .resolves v =>
      if isObjectNonNull v = false then
        { success := false, error := some "Extract must return an object" }
      else
        match (entriesOf v).find? (fun kv => isUndefined kv.2) with
        | some kv =>
            { success := false,
              error := some ("Field " ++ kv.1 ++ " is undefined (should be omitted)") }
        | none => { success := true, data := some (entriesOf v) }

/-! ## Recipe data model (`src/types.ts`) and dispatch (`src/index.ts`) -/

/-- URL-ownership test of a recipe, the tagged form of
`match: RegExp | ((url: string) => boolean)`: a `RegExp` carries its
`source` text and its `test` behaviour; a predicate carries only the
behaviour. -/
inductive RMatch where
  | regex (source : String) (test : String → Bool)
  | func (test : String → Bool)

/-- Field descriptor (`RecipeField` in `src/types.ts`). -/
structure RecipeField where
  type : String
  label : String
  description : Option String := none
  primary : Option Bool := none
  noise : Option Bool := none
  currency : Option String := none

/-- Default alert template (`DefaultAlert` in `src/types.ts`). -/
structure DefaultAlert where
  id : String
  label : String
  description : String
  when : String
  icon : Option String := none

/-- Worked example (`RecipeExample` in `src/types.ts`). -/
structure RecipeExample where
  url : String
  title : String
  subtitle : Option String := none
  image : Option String := none

/-- Recipe metadata (`RecipeMeta` in `src/types.ts`). -/
structure RecipeMeta where
  slug : String
  name : String
  description : String
  icon : String
  category : String
  tags : Option (List String) := none
  maintainers : List String := []
  richExamples : List RecipeExample := []

/-- Well-typed recipe (`Recipe` in `src/types.ts`); the field `matchRule`
embeds the source's `match` member (a Lean keyword). The extraction
routine itself is embedded separately per recipe and is not needed for
dispatch or projection. -/
structure Recipe where
  meta : RecipeMeta
  matchRule : RMatch
  fields : List (String × RecipeField) := []
  defaultAlerts : Option (List DefaultAlert) := none

/-- One iteration of the dispatch loop: branch on the ownership form as
`getRecipeForUrl` does (`instanceof RegExp` versus `typeof === 'function'`)
and apply the test. -/
def matchesUrl (m : RMatch) (url : String) : Bool :=
  match m with
  | .regex _ test => test url
  | .func test => test url

/-- Embedding of `getRecipeForUrl` (`src/index.ts`). The module-level
constants `recipes` (the ordered non-fallback sequence) and
`genericRecipe` (the fallback) are passed as parameters: the loop returns
the first recipe whose ownership test accepts the URL, otherwise the
fallback. -/
def getRecipeForUrl (recipes : List Recipe) (generic : Recipe) (url : String) : Recipe :=
  match recipes with
  | [] => generic
  | r :: rest =>
      if matchesUrl r.matchRule url then r else getRecipeForUrl rest generic url

/-! ## Catalog projection (`toClientRecipe`, `src/index.ts`) -/

/-- Client-safe example (`ClientRecipeExample` in `src/index.ts`). -/
structure ClientRecipeExample where
  url : String
  title : String
  subtitle : Option String
  image : Option String

/-- Client-safe field entry of `ClientRecipe`. -/
structure ClientField where
  key : String
  label : String
  type : String
  primary : Bool

/-- Client-safe alert entry of `ClientRecipe`. -/
structure ClientAlert where
  id : String
  label : String
  description : String
  when : String
  icon : Option String

/-- Client-safe recipe summary (`ClientRecipe` in `src/index.ts`). -/
structure ClientRecipe where
  slug : String
  name : String
  description : String
  icon : String
  category : String
  tags : List String
  richExamples : List ClientRecipeExample
  matchPattern : Option String
  fields : List ClientField
  defaultAlerts : List ClientAlert

/-- Embedding of `toClientRecipe` (`src/index.ts`): `meta.tags || []` and
`(recipe.defaultAlerts || [])` default to the empty list (a present empty
list is returned unchanged, so `Option.getD` is extensionally exact),
`field.primary || false` defaults to `false`, and a predicate ownership
test projects to `null`. -/
def toClientRecipe (recipe : Recipe) : ClientRecipe where
  slug := recipe.meta.slug
  name := recipe.meta.name
  description := recipe.meta.description
  icon := recipe.meta.icon
  category := recipe.meta.category
  tags := recipe.meta.tags.getD []
  richExamples := recipe.meta.richExamples.map (fun ex =>
    { url := ex.url, title := ex.title, subtitle := ex.subtitle, image := ex.image })
  matchPattern :=
    match recipe.matchRule with
    | .regex source _ => some source
    | .func _ => none
  fields := recipe.fields.map (fun kf =>
    { key := kf.1, label := kf.2.label, type := kf.2.type,
      primary := kf.2.primary.getD false })
  defaultAlerts := (recipe.defaultAlerts.getD []).map (fun a =>
    { id := a.id, label := a.label, description := a.description,
      when := a.when, icon := a.icon })

/-! ## Validator (`src/validate.ts`)

The validator is written defensively against ill-typed input (its tests
feed objects cast through `as unknown as Recipe`), so its embedding uses a
loose recipe model in which every checked attribute may be absent. A
JavaScript `undefined` that the source interpolates into a message or
stores in a string slot is rendered as the string `"undefined"`, exactly
as template literals do. -/

/-- Loose field descriptor for validation. -/
structure LField where
  type : Option String := none
  label : Option String := none
  primary : Option Bool := none

/-- Loose alert template for validation. -/
structure LAlert where
  id : Option String := none
  label : Option String := none
  when : Option String := none

/-- Loose worked example for validation. -/
structure LExample where
  url : String
  title : Option String := none

/-- Loose recipe metadata for validation. -/
structure LMeta where
  slug : Option String := none
  name : Option String := none
  description : Option String := none
  icon : Option String := none
  category : Option String := none
  maintainers : Option (List String) := none
  tags : Option (List String) := none
  richExamples : Option (List LExample) := none

/-- Loose recipe for validation; `extractPresent` models the presence of
the `extract` member (the `typeof !== 'function'` branch is unreachable
once presence is a boolean). -/
structure LRecipe where
  meta : Option LMeta := none
  matchRule : Option RMatch := none
  fields : Option (List (String × LField)) := none
  defaultAlerts : Option (List LAlert) := none
  extractPresent : Bool := true

/-- Severity of a validation entry. -/
inductive Severity where
  | error
  | warning
  deriving DecidableEq, Repr

/-- Entry of a validation result (`ValidationError` in `src/validate.ts`). -/
structure ValidationError where
  recipe : String
  field : String
  message : String
  severity : Severity
  deriving DecidableEq, Repr

/-- Validation result (`ValidationResult` in `src/validate.ts`). -/
structure ValidationResult where
  valid : Bool
  errors : List ValidationError
  warnings : List ValidationError

/-- JavaScript truthiness of an optional string (`undefined` and the
empty string are falsy). -/
def otruthy : Option String → Bool
  | some s => s ≠ ""
  | none => false

/-- Rendering of a possibly-`undefined` string into a template literal. -/
def orUndefined : Option String → String
  | some s => s
  | none => "undefined"

/-- Test of the slug format regex `/^[a-z0-9-]+$/`. -/
def slugFormatOk (s : String) : Bool :=
  s ≠ "" && s.data.all (fun c => ('a' ≤ c && c ≤ 'z') || isDigitCh c || c = '-')

/-- The keys of `RECIPE_CATEGORIES` (`src/types.ts`), in declaration
order, as captured by `Object.keys` into `VALID_CATEGORIES`. -/
def validCategories : List String :=
  ["ecommerce", "developer", "jobs", "social", "news", "finance", "status",
    "entertainment", "travel", "government", "other"]

/-- Per-alert check loop of `validateRecipe`, carrying the `alertIds` set
(insertion-ordered here; only membership is observed). -/
def alertChecks (mkErr : String → String → ValidationError) :
    List String → List LAlert → List ValidationError
  | _, [] => []
  | seen, a :: rest =>
      let idPart :=
        match a.id with
        | none => [mkErr "defaultAlerts" "Alert must have an id"]
        | some s =>
            if s = "" then [mkErr "defaultAlerts" "Alert must have an id"]
            else if seen.contains s then
              [mkErr "defaultAlerts" ("Duplicate alert id: " ++ s)]
            else []
      let seen' :=
        match a.id with
        | some s => if s ≠ "" && !seen.contains s then seen ++ [s] else seen
        | none => seen
      let labelPart :=
        if otruthy a.label then []
        else [mkErr "defaultAlerts" ("Alert " ++ orUndefined a.id ++ " must have a label")]
      let whenPart :=
        if otruthy a.when then []
        else [mkErr "defaultAlerts" ("Alert " ++ orUndefined a.id ++ " must have a when condition")]
      idPart ++ labelPart ++ whenPart ++ alertChecks mkErr seen' rest

/-- The `new URL(...)` acceptance test used on example URLs, in terms of
the modelled parser. -/
def urlCanParse (u : String) : Bool := (urlHostname u).isSome

/-- Embedding of `validateRecipe` (`src/validate.ts`). Checks are emitted
in source order; each produces an `(errors, warnings)` pair and the pairs
are concatenated componentwise, which preserves the push order of both
arrays. -/
def validateRecipe (recipe : LRecipe) : ValidationResult :=
  let slugName :=
    match recipe.meta with
    | some m => match m.slug with
      | some s => if s = "" then "unknown" else s
      | none => "unknown"
    | none => "unknown"
  let mkErr : String → String → ValidationError := fun f msg =>
    { recipe := slugName, field := f, message := msg, severity := .error }
  let mkWarn : String → String → ValidationError := fun f msg =>
    { recipe := slugName, field := f, message := msg, severity := .warning }
  match recipe.meta with
  | none =>
      { valid := false,
        errors := [mkErr "meta" "Recipe must have meta object"], warnings := [] }
  | some m =>
      let slugPart :=
        if !otruthy m.slug then [mkErr "meta.slug" "Recipe must have a slug"]
        else if !slugFormatOk (orUndefined m.slug) then
          [mkErr "meta.slug" "Slug must be lowercase alphanumeric with hyphens only"]
        else []
      let namePart : List ValidationError × List ValidationError :=
        if !otruthy m.name then ([mkErr "meta.name" "Recipe must have a name"], [])
        else if 50 < (orUndefined m.name).length then
          ([], [mkWarn "meta.name" "Name should be under 50 characters"])
        else ([], [])
      let descPart : List ValidationError × List ValidationError :=
        if !otruthy m.description then
          ([mkErr "meta.description" "Recipe must have a description"], [])
        else if (orUndefined m.description).length < 20 then
          ([], [mkWarn "meta.description" "Description should be at least 20 characters"])
        else if 200 < (orUndefined m.description).length then
          ([], [mkWarn "meta.description" "Description should be under 200 characters"])
        else ([], [])
      let iconPart :=
        if !otruthy m.icon then [mkErr "meta.icon" "Recipe must have an icon"] else []
      let catPart :=
        if !otruthy m.category then [mkErr "meta.category" "Recipe must have a category"]
        else if !validCategories.contains (orUndefined m.category) then
          [mkErr "meta.category"
            ("Invalid category. Must be one of: " ++ String.intercalate ", " validCategories)]
        else []
      let maintainersPart :=
        match m.maintainers with
        | none => [mkErr "meta.maintainers" "Recipe must have at least one maintainer"]
        | some [] => [mkErr "meta.maintainers" "Recipe must have at least one maintainer"]
        | some (_ :: _) => []
      let tagsPart :=
        match m.tags with
        | none => [mkWarn "meta.tags" "Recipe should have at least one tag for discoverability"]
        | some [] => [mkWarn "meta.tags" "Recipe should have at least one tag for discoverability"]
        | some (_ :: _) => []
      let matchPart :=
        match recipe.matchRule with
        | none => [mkErr "match" "Recipe must have a match pattern"]
        | some _ => []
      let fieldsPart : List ValidationError × List ValidationError :=
        match recipe.fields with
        | none => ([mkErr "fields" "Recipe must have at least one field"], [])
        | some [] => ([mkErr "fields" "Recipe must have at least one field"], [])
        | some fs =>
            let perField := fs.map (fun kf =>
              (if otruthy kf.2.type then []
                else [mkErr ("fields." ++ kf.1) "Field must have a type"]) ++
              (if otruthy kf.2.label then []
                else [mkErr ("fields." ++ kf.1) "Field must have a label"]))
            let hasPrimary := fs.any (fun kf => kf.2.primary.getD false)
            (perField.flatten,
              if hasPrimary then []
              else [mkWarn "fields" "Recipe should have at least one primary field"])
      let extractPart :=
        if recipe.extractPresent then []
        else [mkErr "extract" "Recipe must have an extract function"]
      let alertsPart : List ValidationError × List ValidationError :=
        match recipe.defaultAlerts with
        | none => ([], [mkWarn "defaultAlerts" "Recipe should have at least one default alert"])
        | some alerts => (alertChecks mkErr [] alerts, [])
      let examplesPart : List ValidationError × List ValidationError :=
        match m.richExamples with
        | some (e :: es) =>
            ((e :: es).map (fun ex =>
              (if urlCanParse ex.url then []
                else [mkErr "meta.richExamples" ("Invalid example URL: " ++ ex.url)]) ++
              (if !otruthy ex.title || jsTrim (orUndefined ex.title) = "" then
                [mkErr "meta.richExamples" ("Example missing title for URL: " ++ ex.url)]
                else []) ++
              (match recipe.matchRule with
                | some mt =>
                    if matchesUrl mt ex.url then []
                    else [mkErr "meta.richExamples"
                      ("Example URL does not match recipe pattern: " ++ ex.url)]
                | none => [])) |>.flatten, [])
        | _ => ([], [mkWarn "meta.richExamples" "Recipe should have rich examples for better UX"])
      let errors := slugPart ++ namePart.1 ++ descPart.1 ++ iconPart ++ catPart ++
        maintainersPart ++ matchPart ++ fieldsPart.1 ++ extractPart ++
        alertsPart.1 ++ examplesPart.1
      let warnings := namePart.2 ++ descPart.2 ++ tagsPart ++ fieldsPart.2 ++
        alertsPart.2 ++ examplesPart.2
      { valid := errors.isEmpty, errors := errors, warnings := warnings }

/-- Effective slug for the duplicate count: `recipe.meta?.slug` when
truthy, as filtered by `if (slug)`. -/
def effSlug (r : LRecipe) : Option String :=
  match r.meta with
  | some m => match m.slug with
    | some s => if s = "" then none else some s
    | none => none
  | none => none

/-- One `slugs.set(slug, (slugs.get(slug) || 0) + 1)` step on the
insertion-ordered count map. -/
def bumpSlug : List (String × ℕ) → String → List (String × ℕ)
  | [], s => [(s, 1)]
  | (k, c) :: rest, s =>
      if k = s then (k, c + 1) :: rest else (k, c) :: bumpSlug rest s

/-- The slug-count map built by the duplicate-slug loop. -/
def buildCounts : List LRecipe → List (String × ℕ) → List (String × ℕ)
  | [], acc => acc
  | r :: rs, acc =>
      buildCounts rs (match effSlug r with
        | some s => bumpSlug acc s
        | none => acc)

/-- The duplicate-slug error entry for a slug occurring `c` times. -/
def dupSlugError (s : String) (c : ℕ) : ValidationError :=
  { recipe := s, field := "meta.slug",
    message := "Duplicate slug found " ++ toString c ++ " times",
    severity := .error }

/-- Error entries emitted while iterating the count map in insertion
order. -/
def dupSlugErrors (counts : List (String × ℕ)) : List ValidationError :=
  counts.filterMap (fun sc => if 1 < sc.2 then some (dupSlugError sc.1 sc.2) else none)

/-- Strict `r.meta.slug` access of the overlap loop: a recipe without a
`meta` object makes the loop throw a `TypeError`. -/
def metaSlugStrict (r : LRecipe) : Except String (Option String) :=
  match r.meta with
  | none => .error "TypeError"
  | some m => .ok m.slug

/-- Inner overlap check of `validateAllRecipes`: `r1`'s worked examples
tested against `r2`'s ownership pattern (an absent pattern matches
nothing, mirroring the two `instanceof`/`typeof` branches). -/
def overlapPair (r1 r2 : LRecipe) : Except String (List ValidationError) := do
  let slug1 ← metaSlugStrict r1
  let slug2 ← metaSlugStrict r2
  if slug1 = some "generic" || slug2 = some "generic" then
    return []
  else
    match r1.meta with
    | none => .error "TypeError"
    | some m =>
        match m.richExamples with
        | none => return []
        | some exs =>
            return (exs.filterMap (fun ex =>
              let matchesR2 :=
                match r2.matchRule with
                | some mt => matchesUrl mt ex.url
                | none => false
              if matchesR2 then
                some { recipe := orUndefined slug1, field := "match",
                       message := "Example \"" ++ ex.url ++ "\" also matches " ++
                         orUndefined slug2 ++ " recipe",
                       severity := Severity.warning }
              else none))

/-- The ordered-pair overlap loop (`i < j`). -/
def overlapWarnings : List LRecipe → Except String (List ValidationError)
  | [] => .ok []
  | r1 :: rest => do
      let firstRow ← rest.foldlM (fun acc r2 => do
        let ws ← overlapPair r1 r2
        pure (acc ++ ws)) []
      let others ← overlapWarnings rest
      pure (firstRow ++ others)

/-- Embedding of `validateAllRecipes` (`src/validate.ts`): per-recipe
results, then the duplicate-slug errors, then the overlap warnings. The
overlap loop dereferences `meta` without a guard, so the whole function
can throw on a recipe without metadata; that path is surfaced through
`Except`. -/
def validateAllRecipes (recipes : List LRecipe) : Except String ValidationResult := do
  let perResults := recipes.map validateRecipe
  let perErrors := (perResults.map (fun r => r.errors)).flatten
  let perWarnings := (perResults.map (fun r => r.warnings)).flatten
  let allErrors := perErrors ++ dupSlugErrors (buildCounts recipes [])
  let overl ← overlapWarnings recipes
  pure { valid := allErrors.isEmpty, errors := allErrors,
         warnings := perWarnings ++ overl }

/-! ## `decodeHtmlEntities` (`src/helpers.ts`) -/

/-- ASCII letter test (the `[a-z]+` of the entity regex under the `i`
flag). -/
def isLetterCh (c : Char) : Bool :=
  ('a' ≤ c && c ≤ 'z') || ('A' ≤ c && c ≤ 'Z')

/-- The fixed named-entity table of `decodeHtmlEntities` (lookup is
case-sensitive, exactly as a JavaScript object key access is). -/
def entityTable : List (String × String) :=
  [("&amp;", "&"), ("&lt;", "<"), ("&gt;", ">"), ("&quot;", "\""),
    ("&#39;", "\x27"), ("&nbsp;", " ")]

/-- JavaScript `String.fromCharCode`: the code is reduced modulo 2^16; a
code unit that is not a Lean scalar value (a lone surrogate) degrades to
`U+0000`, a corner no embedded input reaches. -/
def jsFromCharCode (n : ℕ) : Char := Char.ofNat (n % 65536)

/-- Match of the entity regex `/&[a-z]+;|&#\d+;/gi` immediately after a
`&`, returning the replacement produced by the callback together with the
number of characters consumed after the `&`: the full matched text is
looked up in the table first, then a `&#...;` match falls back to
`fromCharCode`, and an unknown named entity is kept unchanged. -/
def entMatch (rest : List Char) : Option (String × ℕ) :=
  match rest with
  | '#' :: more =>
      let ds := more.takeWhile isDigitCh
      if ds.isEmpty then none
      else
        match more.drop ds.length with
        | ';' :: _ =>
            let mtext : String := ⟨'&' :: '#' :: (ds ++ [';'])⟩
            let rep :=
              match entityTable.find? (fun kv => kv.1 = mtext) with
              | some kv => kv.2
              | none => String.singleton (jsFromCharCode (digitsToNat ds))
            some (rep, ds.length + 2)
        | _ => none
  | _ =>
      let ls := rest.takeWhile isLetterCh
      if ls.isEmpty then none
      else
        match rest.drop ls.length with
        | ';' :: _ =>
            let mtext : String := ⟨'&' :: (ls ++ [';'])⟩
            let rep :=
              match entityTable.find? (fun kv => kv.1 = mtext) with
              | some kv => kv.2
              | none => mtext
            some (rep, ls.length + 1)
        | _ => none

/-- Scanner of `decodeHtmlEntities`: the global regex replace visits each
`&` and substitutes the callback's output for the matched text. -/
def decodeScan : List Char → List Char
  | [] => []
  | '&' :: rest =>
      match entMatch rest with
      | some (rep, k) => rep.data ++ decodeScan (rest.drop k)
      | none => '&' :: decodeScan rest
  | c :: rest => c :: decodeScan rest
termination_by cs => cs.length
decreasing_by
  · simp only [List.length_cons, List.length_drop]
    omega
  · simp
  · simp

/-- Embedding of `decodeHtmlEntities` (`src/helpers.ts`). -/
def decodeHtmlEntities (text : String) : String := ⟨decodeScan text.data⟩

/-! ## Amazon extraction routine (`src/recipes/amazon.ts`)

`AmazonPage` abstracts every textual probe of the routine as an input: a
field holds exactly what the corresponding `url.match`/`html.match`/
`extractFirst`/`extractJsonLd`/`extractMetaTags` call yields on the
payload (capture groups as `Option String`, `.test` calls as `Bool`,
pattern lists positionally). Given those observations the control flow of
`extract` is embedded stage by stage. -/

structure AmazonPage where
  asinMatch : Option String := none
  jsonLd : List JVal := []
  productTitle : Option String := none
  metaTags : List (String × String) := []
  wholePrice : Option String := none
  fraction : Option String := none
  pricePatterns : List (Option String) := []
  originalPrice : Option String := none
  discount : Option String := none
  stockPatterns : List (Option String) := []
  outOfStockFlags : List Bool := []
  rating : Option String := none
  reviewPatterns : List (Option String) := []
  brandPatterns : List (Option String) := []
  seller : Option String := none
  soldBy : Option String := none
  isPrimeFlag : Bool := false
  isDealFlag : Bool := false
  coupon : Option String := none
  bsr : Option (String × String) := none
  delivery : Option String := none
  imagePatterns : List (Option String) := []

/-- Lookup in the meta-tag record: a missing tag reads as `undefined`. -/
def metaGet (tags : List (String × String)) (k : String) : JVal :=
  match tags.find? (fun kv => kv.1 = k) with
  | some kv => .str kv.2
  | none => .undefined

/-- Comparison `price > 0` on a JavaScript number (`NaN` compares false). -/
def jgtZero : JNum → Bool
  | .fin q => 0 < q
  | .posInf => true
  | _ => false

/-- Optional index access `v?.[0]` (on a string it reads the first
UTF-16 unit, on an object the property `"0"`). -/
def jidxOpt0 : JVal → JVal
  | .null => .undefined
  | .undefined => .undefined
  | .arr (x :: _) => x
  | .arr [] => .undefined
  | .str s => match s.data with
    | [] => .undefined
    | c :: _ => .str (String.singleton c)
  | .obj fs => fieldLookup fs "0"
  | _ => .undefined

/-- Comma deletion, `replace(/,/g, '')`. -/
def removeCommas (s : String) : String := filterChars (fun c => c ≠ ',') s

/-- Case-insensitive anchored prefix strip used by the brand cleanup. -/
def stripCIPre (pre s : String) : Option String :=
  if (pre.data.map lowerCh).isPrefixOf (s.data.map lowerCh) then
    some ⟨s.data.drop pre.length⟩
  else none

/-- The brand cleanup `replace(/^(Visit the |Brand: )/i, '')` (regex
alternation tries the alternatives left to right). -/
def stripBrandPre (s : String) : String :=
  match stripCIPre "Visit the " s with
  | some r => r
  | none =>
      match stripCIPre "Brand: " s with
      | some r => r
      | none => s

/-- The brand cleanup `replace(/ Store$/, '')` (case-sensitive, anchored
at the end). -/
def stripStoreSuffix (s : String) : String :=
  if (" Store".data).isSuffixOf s.data then ⟨s.data.take (s.data.length - 6)⟩
  else s

/-- One iteration of the Amazon JSON-LD loop (`src/recipes/amazon.ts`,
the `for (const ld of jsonLd)` body): recognized `Product` objects merge
`title`/`description` behind a truthiness guard (`||`) but assign
`brand`/`imageUrl` unconditionally, and carrying `offers` or
`aggregateRating` reassigns `price`/`inStock` resp.
`rating`/`reviewCount`. -/
def amazonLdStep (data : ExtractedData) (ld : JVal) : Except String ExtractedData := do
  let t ← jmem ld "@type"
  if jeqStr t "Product" then do
    let name ← jmem ld "name"
    let desc ← jmem ld "description"
    let brandV ← jmem ld "brand"
    let imageV ← jmem ld "image"
    let d1 := dset data "title" (jor (dget data "title") name)
    let d2 := dset d1 "description" (jor (dget d1 "description") desc)
    let d3 := dset d2 "brand" (jor (jmemOpt brandV "name") brandV)
    let d4 := dset d3 "imageUrl" (jor (jidxOpt0 imageV) imageV)
    let offers ← jmem ld "offers"
    let d6 ←
      if jtruthy offers then do
        let offer := if isArr offers then jidx0 offers else offers
        let price ← jmem offer "price"
        let d5 := if jtruthy price then dset d4 "price" (.num (jparseFloat price)) else d4
        let avail ← jmem offer "availability"
        if jtruthy avail then do
          let b ← jincludes avail "InStock"
          pure (dset d5 "inStock" (.jbool b))
        else pure d5
      else pure d4
    let aggr ← jmem ld "aggregateRating"
    if jtruthy aggr then do
      let rv ← jmem aggr "ratingValue"
      let rc ← jmem aggr "reviewCount"
      pure (dset (dset d6 "rating" (.num (jparseFloat rv))) "reviewCount"
        (.num (jparseInt10 rc)))
    else pure d6
  else pure data

/-- The Amazon JSON-LD loop over all parsed structured objects. -/
def amazonLdStage (data : ExtractedData) : List JVal → Except String ExtractedData
  | [] => pure data
  | ld :: rest => do
      let d ← amazonLdStep data ld
      amazonLdStage d rest

/-- ASIN-from-URL stage (`data.asin = asinMatch[1]`). -/
def amazonAsinStage (p : AmazonPage) (d : ExtractedData) : ExtractedData :=
  match p.asinMatch with
  | some a => dset d "asin" (.str a)
  | none => d

/-- Product-title probe stage, guarded by `if (!data.title)`. -/
def amazonTitleStage (p : AmazonPage) (d : ExtractedData) : ExtractedData :=
  if jtruthy (dget d "title") then d
  else
    match p.productTitle with
    | some t => if t = "" then d else dset d "title" (.str (decodeHtmlEntities (jsTrim t)))
    | none => d

/-- Meta-tag fallback stage for the title: assigns
`meta['og:title'] || meta['twitter:title']` (possibly `undefined`). -/
def amazonMetaStage (p : AmazonPage) (d : ExtractedData) : ExtractedData :=
  if jtruthy (dget d "title") then d
  else dset d "title" (jor (metaGet p.metaTags "og:title") (metaGet p.metaTags "twitter:title"))

/-- Structured whole+fraction price stage, guarded by `if (!data.price)`. -/
def amazonWholeFractionStage (p : AmazonPage) (d : ExtractedData) : ExtractedData :=
  if jtruthy (dget d "price") then d
  else
    match p.wholePrice with
    | some w =>
        dset d "price" (.num (jsParseFloat
          (removeCommas w ++ "." ++ p.fraction.getD "00")))
    | none => d

/-- First price pattern whose captured text is truthy and parses to a
positive price (the loop `break`s there; other captures are skipped). -/
def pickPrice : List (Option String) → Option JNum
  | [] => none
  | none :: rest => pickPrice rest
  | some s :: rest =>
      if s = "" then pickPrice rest
      else
        match parsePrice (some s) with
        | some pr => if jgtZero pr then some pr else pickPrice rest
        | none => pickPrice rest

/-- Price pattern-list stage, guarded by `if (!data.price)`. -/
def amazonPricePatternStage (p : AmazonPage) (d : ExtractedData) : ExtractedData :=
  if jtruthy (dget d "price") then d
  else
    match pickPrice p.pricePatterns with
    | some pr => dset d "price" (.num pr)
    | none => d

/-- Original/list price stage: assigns `parsePrice(...)` unconditionally
on a match, which may store `undefined`. -/
def amazonOriginalPriceStage (p : AmazonPage) (d : ExtractedData) : ExtractedData :=
  match p.originalPrice with
  | some s =>
      dset d "originalPrice"
        (match parsePrice (some s) with
          | some n => .num n
          | none => .undefined)
  | none => d

/-- Discount badge stage. -/
def amazonDiscountStage (p : AmazonPage) (d : ExtractedData) : ExtractedData :=
  match p.discount with
  | some s => dset d "discount" (.str s)
  | none => d

/-- First truthy capture of the stock patterns. -/
def pickTruthy : List (Option String) → Option String
  | [] => none
  | none :: rest => pickTruthy rest
  | some s :: rest => if s = "" then pickTruthy rest else some s

/-- Stock-pattern stage, guarded by `data.inStock === undefined`. -/
def amazonStockStage (p : AmazonPage) (d : ExtractedData) : ExtractedData :=
  if isUndefined (dget d "inStock") then
    match pickTruthy p.stockPatterns with
    | some st =>
        let sl := toLowerStr st
        dset d "inStock" (.jbool (containsSub sl "in stock" || containsSub sl "available" ||
          containsSub sl "only" || containsSub sl "left in stock"))
    | none => d
  else d

/-- Out-of-stock indicator stage, guarded by `data.inStock === undefined`
(the loop sets `false` at the first indicator and `break`s). -/
def amazonOutOfStockStage (p : AmazonPage) (d : ExtractedData) : ExtractedData :=
  if isUndefined (dget d "inStock") then
    if p.outOfStockFlags.any (fun b => b) then dset d "inStock" (.jbool false) else d
  else d

/-- Default stage: `inStock` defaults to `true` when a price key is
present (strict `!== undefined` checks on both sides). -/
def amazonDefaultStockStage (d : ExtractedData) : ExtractedData :=
  if isUndefined (dget d "inStock") && !isUndefined (dget d "price") then
    dset d "inStock" (.jbool true)
  else d

/-- Rating pattern stage, guarded by `if (!data.rating)`. -/
def amazonRatingStage (p : AmazonPage) (d : ExtractedData) : ExtractedData :=
  if jtruthy (dget d "rating") then d
  else
    match p.rating with
    | some r => dset d "rating" (.num (jsParseFloat r))
    | none => d

/-- First successful capture of a pattern list (`if (match) { ...; break }`). -/
def pickFirstSome : List (Option String) → Option String
  | [] => none
  | none :: rest => pickFirstSome rest
  | some s :: _ => some s

/-- Review-count pattern stage, guarded by `if (!data.reviewCount)`. -/
def amazonReviewStage (p : AmazonPage) (d : ExtractedData) : ExtractedData :=
  if jtruthy (dget d "reviewCount") then d
  else
    match pickFirstSome p.reviewPatterns with
    | some rm => dset d "reviewCount" (.num (jsParseInt10 (removeCommas rm)))
    | none => d

/-- Brand pattern stage, guarded by `if (!data.brand)`; the capture is
trimmed, prefix/suffix cleaned, and entity-decoded. -/
def amazonBrandStage (p : AmazonPage) (d : ExtractedData) : ExtractedData :=
  if jtruthy (dget d "brand") then d
  else
    match pickTruthy p.brandPatterns with
    | some b =>
        dset d "brand" (.str (decodeHtmlEntities (stripStoreSuffix (stripBrandPre (jsTrim b)))))
    | none => d

/-- Seller stage: the profile link, else the "Ships from and sold by"
text. -/
def amazonSellerStage (p : AmazonPage) (d : ExtractedData) : ExtractedData :=
  match p.seller with
  | some s => dset d "seller" (.str (decodeHtmlEntities (jsTrim s)))
  | none =>
      match p.soldBy with
      | some s => dset d "seller" (.str (decodeHtmlEntities (jsTrim s)))
      | none => d

/-- Prime badge stage (unconditional boolean assignment). -/
def amazonIsPrimeStage (p : AmazonPage) (d : ExtractedData) : ExtractedData :=
  dset d "isPrime" (.jbool p.isPrimeFlag)

/-- Deal badge stage (unconditional boolean assignment). -/
def amazonIsDealStage (p : AmazonPage) (d : ExtractedData) : ExtractedData :=
  dset d "isDeal" (.jbool p.isDealFlag)

/-- Coupon stage: a `%` capture is kept, anything else is `$`-prefixed. -/
def amazonCouponStage (p : AmazonPage) (d : ExtractedData) : ExtractedData :=
  match p.coupon with
  | some c => dset d "coupon" (.str (if containsSub c "%" then c else "$" ++ c))
  | none => d

/-- Best-seller-rank stage: sets the rank and the category from the two
captures. -/
def amazonBsrStage (p : AmazonPage) (d : ExtractedData) : ExtractedData :=
  match p.bsr with
  | some rc =>
      dset (dset d "bestSellerRank" (.num (jsParseInt10 (removeCommas rc.1))))
        "category" (.str (jsTrim rc.2))
  | none => d

/-- Delivery-date stage. -/
def amazonDeliveryStage (p : AmazonPage) (d : ExtractedData) : ExtractedData :=
  match p.delivery with
  | some s => dset d "deliveryDate" (.str (decodeHtmlEntities (jsTrim s)))
  | none => d

/-- Image pattern stage, guarded by `if (!data.imageUrl)`. -/
def amazonImageStage (p : AmazonPage) (d : ExtractedData) : ExtractedData :=
  if jtruthy (dget d "imageUrl") then d
  else
    match pickFirstSome p.imagePatterns with
    | some m => dset d "imageUrl" (.str m)
    | none => d

/-- The pure tail of the Amazon routine: every stage after the JSON-LD
loop, in source order. -/
def amazonAfterLd (p : AmazonPage) (d : ExtractedData) : ExtractedData :=
  let d3 := amazonTitleStage p d
  let d4 := amazonMetaStage p d3
  let d5 := amazonWholeFractionStage p d4
  let d6 := amazonPricePatternStage p d5
  let d7 := amazonOriginalPriceStage p d6
  let d8 := amazonDiscountStage p d7
  let d9 := amazonStockStage p d8
  let d10 := amazonOutOfStockStage p d9
  let d11 := amazonDefaultStockStage d10
  let d12 := amazonRatingStage p d11
  let d13 := amazonReviewStage p d12
  let d14 := amazonBrandStage p d13
  let d15 := amazonSellerStage p d14
  let d16 := amazonIsPrimeStage p d15
  let d17 := amazonIsDealStage p d16
  let d18 := amazonCouponStage p d17
  let d19 := amazonBsrStage p d18
  let d20 := amazonDeliveryStage p d19
  amazonImageStage p d20

/-- Embedding of the full Amazon `extract` routine: ASIN stage, JSON-LD
loop (which can throw a `TypeError` on degenerate structured data), then
the pure fallback stages. -/
def amazonExtract (p : AmazonPage) : Except String ExtractedData := do
  let d1 ← amazonLdStage (amazonAsinStage p []) p.jsonLd
  pure (amazonAfterLd p d1)

/-! ## eBay JSON-LD loop (`src/recipes/ebay.ts`)

The claims about structured-data merge semantics cite the eBay routine's
`for (const ld of jsonLd)` loop; only that loop is embedded here, over the
parsed structured objects. -/

/-- Word character of the regex class `\w`. -/
def isWordCh (c : Char) : Bool := isLetterCh c || isDigitCh c || c = '_'

/-- Backtracking of the greedy group in `/(\w+)Condition/` at a fixed
start: the longest nonempty word-character prefix that is immediately
followed by the literal `Condition`. -/
def condTryLens (cs : List Char) : ℕ → Option (List Char)
  | 0 => none
  | n + 1 =>
      if ("Condition".data).isPrefixOf (cs.drop (n + 1)) then some (cs.take (n + 1))
      else condTryLens cs n

/-- Leftmost match of `/(\w+)Condition/`: scan start positions left to
right, group greedily at the first feasible start. -/
def condScan : List Char → Option (List Char)
  | [] => none
  | c :: rest =>
      if isWordCh c then
        match condTryLens (c :: rest) ((c :: rest).takeWhile isWordCh).length with
        | some g => some g
        | none => condScan rest
      else condScan rest

/-- Method call `itemCondition.match(/(\w+)Condition/)` reduced to its
first capture group; a non-string receiver throws. -/
def jmatchCond (v : JVal) : Except String (Option String) :=
  match v with
  | .str s => .ok ((condScan s.data).map (fun g => (⟨g⟩ : String)))
  | _ => .error "TypeError"

/-- The `conditionMap` literal of the eBay routine. -/
def conditionMap : List (String × String) :=
  [("NewCondition", "New"), ("UsedCondition", "Used"),
    ("RefurbishedCondition", "Refurbished")]

/-- Value stored for a condition capture:
`conditionMap[condMatch[1] + 'Condition'] || condMatch[1]`. -/
def condValue (g : String) : String :=
  match conditionMap.find? (fun kv => kv.1 = g ++ "Condition") with
  | some kv => kv.2
  | none => g

/-- One iteration of the eBay JSON-LD loop (`src/recipes/ebay.ts`): a
recognized `Product` object assigns every one of its fields
unconditionally, so a later object replaces the values taken from an
earlier one. -/
def ebayLdStep (data : ExtractedData) (ld : JVal) : Except String ExtractedData := do
  let t ← jmem ld "@type"
  if jeqStr t "Product" then do
    let name ← jmem ld "name"
    let brandV ← jmem ld "brand"
    let desc ← jmem ld "description"
    let imageV ← jmem ld "image"
    let d1 := dset data "title" name
    let d2 := dset d1 "brand" (jor (jmemOpt brandV "name") brandV)
    let d3 := dset d2 "description" desc
    let d4 := dset d3 "imageUrl" (if isArr imageV then jidx0 imageV else imageV)
    let offersV ← jmem ld "offers"
    if jtruthy offersV then do
      let offers := if isArr offersV then jidx0 offersV else offersV
      let price ← jmem offers "price"
      let d5 := dset d4 "price" (.num (jparseFloat price))
      let cur ← jmem offers "priceCurrency"
      let d6 := dset d5 "currency" cur
      let avail ← jmem offers "availability"
      let d7 ←
        if jtruthy avail then do
          let b ← jincludes avail "InStock"
          pure (dset d6 "inStock" (.jbool b))
        else pure d6
      let cond ← jmem offers "itemCondition"
      if jtruthy cond then do
        let g ← jmatchCond cond
        match g with
        | some gs => pure (dset d7 "condition" (.str (condValue gs)))
        | none => pure d7
      else pure d7
    else pure d4
  else pure data

/-- The eBay JSON-LD loop over all parsed structured objects. -/
def ebayLdStage (data : ExtractedData) : List JVal → Except String ExtractedData
  | [] => pure data
  | ld :: rest => do
      let d ← ebayLdStep data ld
      ebayLdStage d rest

/-! ## Map lemmas -/

/-- Reading a cons cell: the head binding shadows the tail. -/
theorem dget_cons (kv : String × JVal) (d : ExtractedData) (k : String) :
    dget (kv :: d) k = if kv.1 = k then kv.2 else dget d k := by
  obtain ⟨k1, v1⟩ := kv
  by_cases h : k1 = k <;> simp [dget, List.find?, h]

/-- Writing then reading the same key. -/
theorem dget_dset_self (d : ExtractedData) (k : String) (v : JVal) :
    dget (dset d k v) k = v := by
  induction d with
  | nil => simp [dset, dget, List.find?]
  | cons kv rest ih =>
      obtain ⟨k1, v1⟩ := kv
      by_cases h : k1 = k <;> simp [dset, h, dget_cons, ih]

/-- Writing one key leaves every other key unchanged. -/
theorem dget_dset_ne (d : ExtractedData) (k k' : String) (v : JVal) (h : k ≠ k') :
    dget (dset d k v) k' = dget d k' := by
  induction d with
  | nil => simp [dset, dget_cons, h, dget]
  | cons kv rest ih =>
      obtain ⟨k1, v1⟩ := kv
      by_cases hk : k1 = k <;> simp [dset, hk, dget_cons, ih, h]

/-- Rewriting a present key with its current value is the identity. -/
theorem dset_dget_of_truthy (d : ExtractedData) (k : String)
    (h : jtruthy (dget d k) = true) : dset d k (dget d k) = d := by
  induction d with
  | nil => simp [dget, List.find?, jtruthy] at h
  | cons kv rest ih =>
      obtain ⟨k1, v1⟩ := kv
      by_cases hk : k1 = k
      · simp [dset, hk, dget_cons]
      · simp only [dget_cons, hk, if_false] at h ⊢
        simp [dset, hk, ih h]

/-! ## Claim C3 — `parsePrice` on thousands-separated input -/

/-- Claim C3, counterexample: contrary to the specified normalization,
`parsePrice` does not map `"$1,234.56"` to the number `1234.56`. -/
theorem parsePrice_not_1234_56 :
    parsePrice (some "$1,234.56") ≠ some (JNum.fin (123456 / 100)) := by
  with_unfolding_all decide

/-- Claim C3, amended: `parsePrice` maps both `"$1,234.56"` and
`"1,234.56"` to `1.234` — the cleanup keeps `1,234.56`, the
single-occurrence `replace(',', '.')` turns it into `1.234.56`, and
`parseFloat` stops at the second dot. -/
theorem parsePrice_comma_values :
    parsePrice (some "$1,234.56") = some (JNum.fin (617 / 500)) ∧
      parsePrice (some "1,234.56") = some (JNum.fin (617 / 500)) := by
  constructor <;> with_unfolding_all decide

/-! ## Claim C8 — totality and absent-value signalling of the helpers -/

/-- Claim C8, counterexample: `parseAbbreviatedNumber` does not signal
absence on unparseable input — `"abc"` yields the ordinary number `0`,
indistinguishable from parsing `"0"`. -/
theorem parseAbbreviatedNumber_unparseable_is_zero :
    parseAbbreviatedNumber "abc" = JNum.fin 0 ∧
      parseAbbreviatedNumber "abc" = parseAbbreviatedNumber "0" := by
  constructor <;> with_unfolding_all decide

/-- Claim C8, amended: the normalization helpers are total (their
embeddings are Lean functions, so no input raises), and `parsePrice`
returns the absent signal or a non-`NaN` number while `extractDomain`
returns `""` whenever the URL fails to parse; but
`parseAbbreviatedNumber` never signals absence: unparseable plain input
collapses to the number `0`, and a `k`/`m`/`b`-suffixed input with an
unparseable mantissa yields `NaN`. -/
theorem normalization_helpers_absent_signals :
    (∀ s : String, parsePrice (some s) = none ∨
      ∃ n, parsePrice (some s) = some n ∧ n ≠ JNum.nan) ∧
    (∀ u : String, urlHostname u = none → extractDomain u = "") ∧
    parseAbbreviatedNumber "abc" = JNum.fin 0 ∧
    parseAbbreviatedNumber "xk" = JNum.nan := by
  refine ⟨?_, ?_, by with_unfolding_all decide, by with_unfolding_all decide⟩
  · intro s
    by_cases hs : s = ""
    · left; simp [parsePrice, hs]
    · rcases h : jsParseFloat (replaceFirstStr
        (filterChars (fun c => isDigitCh c || c = '.' || c = ',') s) "," ".") with _ | _ | _ | q
      · left; simp [parsePrice, hs, h]
      · right; exact ⟨JNum.posInf, by simp [parsePrice, hs, h]⟩
      · right; exact ⟨JNum.negInf, by simp [parsePrice, hs, h]⟩
      · right; exact ⟨JNum.fin q, by simp [parsePrice, hs, h]⟩
  · intro u h
    simp [extractDomain, h]

/-- Claim C8, witness: the general clauses applied at `"?"` (whose
cleanup parses to nothing) and at the scheme-less URL `"nope"`. -/
theorem normalization_helpers_absent_signals_witness :
    (parsePrice (some "?") = none ∨
      ∃ n, parsePrice (some "?") = some n ∧ n ≠ JNum.nan) ∧
      urlHostname "nope" = none ∧ extractDomain "nope" = "" :=
  ⟨normalization_helpers_absent_signals.1 "?", by with_unfolding_all decide,
    normalization_helpers_absent_signals.2.1 "nope" (by with_unfolding_all decide)⟩

/-! ## Claim C10 — `parseAbbreviatedNumber` without a magnitude suffix -/

/-- Claim C10: on input whose trimmed, lower-cased form does not end in
`k`, `m` or `b`, `parseAbbreviatedNumber` deletes commas, dots and
whitespace and parses the remainder with `parseInt(..., 10)`, falling
back to `0` when nothing parses; in particular `"1.5"` yields `15` and
`"abc"` yields `0`. -/
theorem parseAbbreviatedNumber_no_suffix_branch :
    (∀ s : String,
      endsWithCh (toLowerStr (jsTrim s)) 'k' = false →
      endsWithCh (toLowerStr (jsTrim s)) 'm' = false →
      endsWithCh (toLowerStr (jsTrim s)) 'b' = false →
      parseAbbreviatedNumber s =
        (let n := jsParseInt10 (filterChars
          (fun c => !(c = ',' || c = '.' || isSpaceCh c)) (toLowerStr (jsTrim s)))
         if n.truthy then n else JNum.fin 0)) ∧
    parseAbbreviatedNumber "1.5" = JNum.fin 15 ∧
    parseAbbreviatedNumber "abc" = JNum.fin 0 := by
  refine ⟨?_, by with_unfolding_all decide, by with_unfolding_all decide⟩
  intro s h1 h2 h3
  simp [parseAbbreviatedNumber, h1, h2, h3]

/-- Claim C10, witness: the branch equation applied at `"1.5"`. -/
theorem parseAbbreviatedNumber_no_suffix_branch_witness :
    endsWithCh (toLowerStr (jsTrim "1.5")) 'k' = false ∧
      parseAbbreviatedNumber "1.5" =
        (let n := jsParseInt10 (filterChars
          (fun c => !(c = ',' || c = '.' || isSpaceCh c)) (toLowerStr (jsTrim "1.5")))
         if n.truthy then n else JNum.fin 0) :=
  ⟨by decide, parseAbbreviatedNumber_no_suffix_branch.1 "1.5" (by decide) (by decide)
    (by decide)⟩

/-! ## Claim C9 — `toClientRecipe` totalizes the optional attributes -/

/-- Claim C9: the client projection always carries defined tags, primary
flags and alert lists — absent `meta.tags` projects to `[]`, an absent
per-field `primary` flag projects to `false`, and absent `defaultAlerts`
projects to `[]`. -/
theorem toClientRecipe_totalizes_optionals (r : Recipe) :
    (r.meta.tags = none → (toClientRecipe r).tags = []) ∧
    (r.defaultAlerts = none → (toClientRecipe r).defaultAlerts = []) ∧
    (toClientRecipe r).fields.map (fun f => f.primary) =
      r.fields.map (fun kf => kf.2.primary.getD false) := by
  refine ⟨fun h => ?_, fun h => ?_, ?_⟩
  · simp [toClientRecipe, h]
  · simp [toClientRecipe, h]
  · simp [toClientRecipe, List.map_map]

/-- Concrete recipe with every optional attribute absent. -/
def bareRecipe : Recipe :=
  { meta := { slug := "bare", name := "Bare", description := "d", icon := "i",
              category := "other" },
    matchRule := .func (fun _ => false),
    fields := [("title", { type := "string", label := "Title" })] }

/-- Claim C9, witness: the projection of `bareRecipe`. -/
theorem toClientRecipe_totalizes_optionals_witness :
    bareRecipe.meta.tags = none ∧ (toClientRecipe bareRecipe).tags = [] ∧
      bareRecipe.defaultAlerts = none ∧ (toClientRecipe bareRecipe).defaultAlerts = [] :=
  ⟨rfl, (toClientRecipe_totalizes_optionals bareRecipe).1 rfl, rfl,
    (toClientRecipe_totalizes_optionals bareRecipe).2.1 rfl⟩

/-! ## Claim C1 — dispatch returns the first owning recipe, else the fallback -/

/-- Claim C1: `getRecipeForUrl` returns exactly one recipe: when no
recipe in the ordered non-fallback sequence accepts the URL it returns
the fallback, and when the sequence splits as `pre ++ r :: post` with `r`
accepting the URL and everything in `pre` rejecting it, it returns `r` —
in particular the earlier-registered of two accepting recipes. -/
theorem getRecipeForUrl_first_match_or_fallback
    (recipes : List Recipe) (generic : Recipe) (url : String) :
    ((∀ r ∈ recipes, matchesUrl r.matchRule url = false) →
      getRecipeForUrl recipes generic url = generic) ∧
    (∀ (pre post : List Recipe) (r : Recipe), recipes = pre ++ r :: post →
      matchesUrl r.matchRule url = true →
      (∀ r' ∈ pre, matchesUrl r'.matchRule url = false) →
      getRecipeForUrl recipes generic url = r) := by
  constructor
  · intro hall
    induction recipes with
    | nil => rfl
    | cons a rest ih =>
        have ha := hall a (List.mem_cons_self a rest)
        simp only [getRecipeForUrl, ha, if_false, Bool.false_eq_true]
        exact ih (fun r hr => hall r (List.mem_cons_of_mem a hr))
  · intro pre post r hsplit hr hpre
    subst hsplit
    induction pre with
    | nil => simp [getRecipeForUrl, hr]
    | cons a rest ih =>
        have ha := hpre a (List.mem_cons_self a rest)
        simp only [List.cons_append, getRecipeForUrl, ha, if_false, Bool.false_eq_true]
        exact ih (fun r' hr' => hpre r' (List.mem_cons_of_mem a hr'))

/-- Concrete recipe owning every URL containing `shop.test`. -/
def shopRecipeA : Recipe :=
  { meta := { slug := "shop-a", name := "A", description := "d", icon := "i",
              category := "ecommerce" },
    matchRule := .regex "shop\\.test" (fun u => containsSub u "shop.test") }

/-- Second concrete recipe whose ownership also accepts shop URLs. -/
def shopRecipeB : Recipe :=
  { meta := { slug := "shop-b", name := "B", description := "d", icon := "i",
              category := "ecommerce" },
    matchRule := .func (fun u => containsSub u "shop.test") }

/-- Concrete fallback recipe accepting everything. -/
def fallbackRecipe : Recipe :=
  { meta := { slug := "generic", name := "Web Page", description := "d", icon := "i",
              category := "other" },
    matchRule := .func (fun _ => true) }

/-- Claim C1, witness: with two recipes both owning
`https://shop.test/item/9` the earlier one is returned, and an unmatched
URL falls back to the generic recipe. -/
theorem getRecipeForUrl_first_match_or_fallback_witness :
    (getRecipeForUrl [shopRecipeA, shopRecipeB] fallbackRecipe
        "https://shop.test/item/9").meta.slug = "shop-a" ∧
    (getRecipeForUrl [shopRecipeA, shopRecipeB] fallbackRecipe
        "https://other.test/").meta.slug = "generic" := by
  constructor
  · have h := (getRecipeForUrl_first_match_or_fallback [shopRecipeA, shopRecipeB]
      fallbackRecipe "https://shop.test/item/9").2 [] [shopRecipeB] shopRecipeA rfl
      (by decide) (by intro r' hr'; simp at hr')
    rw [h]
    rfl
  · have h := (getRecipeForUrl_first_match_or_fallback [shopRecipeA, shopRecipeB]
      fallbackRecipe "https://other.test/").1 ?_
    · rw [h]
      rfl
    · intro r hr
      simp only [List.mem_cons, List.mem_singleton] at hr
      rcases hr with rfl | rfl | h'
      · decide
      · decide
      · simp at h'

/-! ## Claim C6 — `testExtractFunction` captures every failure -/

/-- Claim C6: `testExtractFunction` never propagates a raised failure — a
rejection becomes `{success := false, error}` with the thrown message, a
non-object result or any entry bound to the `undefined` sentinel is a
failure, every failure carries an error, and the routine succeeds exactly
on object results free of `undefined` entries, in which case it returns
the result's entries as data. -/
theorem testExtractFunction_captures_failures (o : ExtractOutcome) :
    ((testExtractFunction o).success = true ↔
      ∃ v, o = .resolves v ∧ isObjectNonNull v = true ∧
        ∀ kv ∈ entriesOf v, isUndefined kv.2 = false) ∧
    (∀ m, o = .throws m →
      testExtractFunction o =
        { success := false, error := some (m.getD "Unknown error") }) ∧
    (∀ v, o = .resolves v → (testExtractFunction o).success = true →
      (testExtractFunction o).data = some (entriesOf v)) ∧
    ((testExtractFunction o).success = false → (testExtractFunction o).error ≠ none) := by
  cases o with
  | throws m =>
      refine ⟨by simp [testExtractFunction], fun m' h => ?_, fun v h => by simp at h,
        by simp [testExtractFunction]⟩
      injection h with h'
      subst h'
      rfl
  | resolves v =>
      by_cases hobj : isObjectNonNull v = true
      · rcases hfind : (entriesOf v).find? (fun kv => isUndefined kv.2) with _ | kv
        · have hall : ∀ kv ∈ entriesOf v, isUndefined kv.2 = false := by
            intro kv hkv
            have := List.find?_eq_none.mp hfind kv hkv
            simpa using this
          refine ⟨?_, fun m h => by simp at h, fun v' hv hs => ?_, ?_⟩
          · simp only [testExtractFunction, hobj, hfind]
            constructor
            · intro _
              exact ⟨v, rfl, hobj, hall⟩
            · intro _
              rfl
          · injection hv with hv'
            subst hv'
            simp [testExtractFunction, hobj, hfind]
          · simp [testExtractFunction, hobj, hfind]
        · have hmem := List.mem_of_find?_eq_some hfind
          have hpred := List.find?_some hfind
          refine ⟨?_, fun m h => by simp at h, fun v' hv hs => ?_, ?_⟩
          · simp only [testExtractFunction, hobj, hfind]
            constructor
            · intro h
              exact absurd h (by simp)
            · rintro ⟨v', hv', hobj', hall⟩
              injection hv' with hv''
              subst hv''
              have := hall kv hmem
              rw [this] at hpred
              exact absurd hpred (by simp)
          · exfalso
            simp [testExtractFunction, hobj, hfind] at hs
          · simp [testExtractFunction, hobj, hfind]
      · refine ⟨?_, fun m h => by simp at h, fun v' hv hs => ?_, ?_⟩
        · simp only [testExtractFunction, hobj]
          constructor
          · intro h
            exact absurd h (by simp)
          · rintro ⟨v', hv', hobj', _⟩
            injection hv' with hv''
            subst hv''
            rw [hobj'] at hobj
            exact absurd hobj (by simp)
        · exfalso
          simp [testExtractFunction, hobj] at hs
        · simp [testExtractFunction, hobj]

/-- Claim C6, witness: a rejection with message `"boom"` is captured, and
a clean object result succeeds. -/
theorem testExtractFunction_captures_failures_witness :
    testExtractFunction (.throws (some "boom")) =
      { success := false, error := some "boom" } ∧
    (testExtractFunction (.resolves (.obj [("price", .num (.fin 1))]))).success = true :=
  ⟨by simpa using
      (testExtractFunction_captures_failures (.throws (some "boom"))).2.1 (some "boom") rfl,
    (testExtractFunction_captures_failures
        (.resolves (.obj [("price", .num (.fin 1))]))).1.mpr
      ⟨_, rfl, rfl, by decide⟩⟩

/-! ## Claims C2 and C4 — Amazon pipeline stage semantics -/

/-- The title probe stage never touches `price`. -/
theorem dget_amazonTitleStage_price (p : AmazonPage) (d : ExtractedData) :
    dget (amazonTitleStage p d) "price" = dget d "price" := by
  unfold amazonTitleStage
  split
  · rfl
  · split
    · split
      · rfl
      · exact dget_dset_ne _ _ _ _ (by decide)
    · rfl

/-- The meta-tag title stage never touches `price`. -/
theorem dget_amazonMetaStage_price (p : AmazonPage) (d : ExtractedData) :
    dget (amazonMetaStage p d) "price" = dget d "price" := by
  unfold amazonMetaStage
  split
  · rfl
  · exact dget_dset_ne _ _ _ _ (by decide)

/-- A truthy `price` disables the whole+fraction stage. -/
theorem amazonWholeFractionStage_skip (p : AmazonPage) (d : ExtractedData)
    (h : jtruthy (dget d "price") = true) : amazonWholeFractionStage p d = d := by
  simp [amazonWholeFractionStage, h]

/-- A truthy `price` disables the price pattern stage. -/
theorem amazonPricePatternStage_skip (p : AmazonPage) (d : ExtractedData)
    (h : jtruthy (dget d "price") = true) : amazonPricePatternStage p d = d := by
  simp [amazonPricePatternStage, h]

/-- The original-price stage never touches `price`. -/
theorem dget_amazonOriginalPriceStage_price (p : AmazonPage) (d : ExtractedData) :
    dget (amazonOriginalPriceStage p d) "price" = dget d "price" := by
  unfold amazonOriginalPriceStage
  split
  · exact dget_dset_ne _ _ _ _ (by decide)
  · rfl

/-- The discount stage never touches `price`. -/
theorem dget_amazonDiscountStage_price (p : AmazonPage) (d : ExtractedData) :
    dget (amazonDiscountStage p d) "price" = dget d "price" := by
  unfold amazonDiscountStage
  split
  · exact dget_dset_ne _ _ _ _ (by decide)
  · rfl

/-- The stock pattern stage never touches `price`. -/
theorem dget_amazonStockStage_price (p : AmazonPage) (d : ExtractedData) :
    dget (amazonStockStage p d) "price" = dget d "price" := by
  unfold amazonStockStage
  split
  · split
    · exact dget_dset_ne _ _ _ _ (by decide)
    · rfl
  · rfl

/-- The out-of-stock stage never touches `price`. -/
theorem dget_amazonOutOfStockStage_price (p : AmazonPage) (d : ExtractedData) :
    dget (amazonOutOfStockStage p d) "price" = dget d "price" := by
  unfold amazonOutOfStockStage
  split
  · split
    · exact dget_dset_ne _ _ _ _ (by decide)
    · rfl
  · rfl

/-- The default-stock stage never touches `price`. -/
theorem dget_amazonDefaultStockStage_price (d : ExtractedData) :
    dget (amazonDefaultStockStage d) "price" = dget d "price" := by
  unfold amazonDefaultStockStage
  split
  · exact dget_dset_ne _ _ _ _ (by decide)
  · rfl

/-- The rating stage never touches `price`. -/
theorem dget_amazonRatingStage_price (p : AmazonPage) (d : ExtractedData) :
    dget (amazonRatingStage p d) "price" = dget d "price" := by
  unfold amazonRatingStage
  split
  · rfl
  · split
    · exact dget_dset_ne _ _ _ _ (by decide)
    · rfl

/-- The review-count stage never touches `price`. -/
theorem dget_amazonReviewStage_price (p : AmazonPage) (d : ExtractedData) :
    dget (amazonReviewStage p d) "price" = dget d "price" := by
  unfold amazonReviewStage
  split
  · rfl
  · split
    · exact dget_dset_ne _ _ _ _ (by decide)
    · rfl

/-- The brand stage never touches `price`. -/
theorem dget_amazonBrandStage_price (p : AmazonPage) (d : ExtractedData) :
    dget (amazonBrandStage p d) "price" = dget d "price" := by
  unfold amazonBrandStage
  split
  · rfl
  · split
    · exact dget_dset_ne _ _ _ _ (by decide)
    · rfl

/-- The seller stage never touches `price`. -/
theorem dget_amazonSellerStage_price (p : AmazonPage) (d : ExtractedData) :
    dget (amazonSellerStage p d) "price" = dget d "price" := by
  unfold amazonSellerStage
  split
  · exact dget_dset_ne _ _ _ _ (by decide)
  · split
    · exact dget_dset_ne _ _ _ _ (by decide)
    · rfl

/-- The Prime badge stage never touches `price`. -/
theorem dget_amazonIsPrimeStage_price (p : AmazonPage) (d : ExtractedData) :
    dget (amazonIsPrimeStage p d) "price" = dget d "price" :=
  dget_dset_ne _ _ _ _ (by decide)

/-- The deal badge stage never touches `price`. -/
theorem dget_amazonIsDealStage_price (p : AmazonPage) (d : ExtractedData) :
    dget (amazonIsDealStage p d) "price" = dget d "price" :=
  dget_dset_ne _ _ _ _ (by decide)

/-- The coupon stage never touches `price`. -/
theorem dget_amazonCouponStage_price (p : AmazonPage) (d : ExtractedData) :
    dget (amazonCouponStage p d) "price" = dget d "price" := by
  unfold amazonCouponStage
  split
  · exact dget_dset_ne _ _ _ _ (by decide)
  · rfl

/-- The best-seller-rank stage never touches `price`. -/
theorem dget_amazonBsrStage_price (p : AmazonPage) (d : ExtractedData) :
    dget (amazonBsrStage p d) "price" = dget d "price" := by
  unfold amazonBsrStage
  split
  · rw [dget_dset_ne _ _ _ _ (by decide), dget_dset_ne _ _ _ _ (by decide)]
  · rfl

/-- The delivery stage never touches `price`. -/
theorem dget_amazonDeliveryStage_price (p : AmazonPage) (d : ExtractedData) :
    dget (amazonDeliveryStage p d) "price" = dget d "price" := by
  unfold amazonDeliveryStage
  split
  · exact dget_dset_ne _ _ _ _ (by decide)
  · rfl

/-- The image stage never touches `price`. -/
theorem dget_amazonImageStage_price (p : AmazonPage) (d : ExtractedData) :
    dget (amazonImageStage p d) "price" = dget d "price" := by
  unfold amazonImageStage
  split
  · rfl
  · split
    · exact dget_dset_ne _ _ _ _ (by decide)
    · rfl

/-- A structured product object carrying a plain price string, as parsed
from a `ld+json` script tag `{"@type": "Product", "offers": {"price": s}}`. -/
def ldProductPrice (s : String) : JVal :=
  .obj [("@type", .str "Product"), ("offers", .obj [("price", .str s)])]

/-- Payload whose structured data resolve the price to `0` while the
first price pattern captures `19.99`. -/
def amazonZeroPricePage : AmazonPage :=
  { jsonLd := [ldProductPrice "0"], pricePatterns := [some "19.99"] }

/-- Payload whose structured data resolve the price to `29.99` while the
first price pattern captures a conflicting `19.99`. -/
def amazonStructuredPricePage : AmazonPage :=
  { jsonLd := [ldProductPrice "29.99"], pricePatterns := [some "19.99"] }

/-- Claim C2, counterexample: the structured-data stage sets `price` to
`0`, yet the full routine returns the pattern-matched `19.99` — the
falsy-value guard `if (!data.price)` lets a later stage overwrite a field
set by an earlier one. -/
theorem amazon_price_zero_structured_overwritten :
    (amazonLdStage (amazonAsinStage amazonZeroPricePage []) amazonZeroPricePage.jsonLd).map
        (fun d => dget d "price") = .ok (.num (.fin 0)) ∧
    (amazonExtract amazonZeroPricePage).map (fun d => dget d "price") =
      .ok (.num (.fin (1999 / 100))) := by
  constructor <;> with_unfolding_all rfl

/-- Claim C2, amended: every stage after the structured-data stage leaves
a price unchanged provided that price is truthy (nonzero and not `NaN`);
in particular a payload with a structured price of `29.99` and a
conflicting pattern-matched `19.99` yields `29.99`. -/
theorem amazon_price_earlier_stage_wins :
    (∀ (p : AmazonPage) (d : ExtractedData), jtruthy (dget d "price") = true →
      dget (amazonAfterLd p d) "price" = dget d "price") ∧
    (amazonExtract amazonStructuredPricePage).map (fun d => dget d "price") =
      .ok (.num (.fin (2999 / 100))) := by
  constructor
  · intro p d h
    simp only [amazonAfterLd]
    have e3 := dget_amazonTitleStage_price p d
    have e4 := dget_amazonMetaStage_price p (amazonTitleStage p d)
    have t4 : jtruthy (dget (amazonMetaStage p (amazonTitleStage p d)) "price") = true := by
      rw [e4, e3]; exact h
    rw [amazonWholeFractionStage_skip _ _ t4, amazonPricePatternStage_skip _ _ t4]
    rw [dget_amazonImageStage_price, dget_amazonDeliveryStage_price, dget_amazonBsrStage_price,
      dget_amazonCouponStage_price, dget_amazonIsDealStage_price, dget_amazonIsPrimeStage_price,
      dget_amazonSellerStage_price, dget_amazonBrandStage_price, dget_amazonReviewStage_price,
      dget_amazonRatingStage_price, dget_amazonDefaultStockStage_price,
      dget_amazonOutOfStockStage_price, dget_amazonStockStage_price,
      dget_amazonDiscountStage_price, dget_amazonOriginalPriceStage_price, e4, e3]
  · with_unfolding_all rfl

/-- Claim C2, witness: the preservation clause applied to a map holding a
truthy price of `29.99`. -/
theorem amazon_price_earlier_stage_wins_witness :
    jtruthy (dget [("price", JVal.num (JNum.fin (2999 / 100)))] "price") = true ∧
    dget (amazonAfterLd amazonStructuredPricePage
        [("price", JVal.num (JNum.fin (2999 / 100)))]) "price" =
      dget [("price", JVal.num (JNum.fin (2999 / 100)))] "price" :=
  ⟨by with_unfolding_all decide,
    amazon_price_earlier_stage_wins.1 amazonStructuredPricePage _
      (by with_unfolding_all decide)⟩

/-- Claim C4: the Amazon routine on the empty payload and empty URL (all
probes fail) returns a map binding `title` to the `undefined` sentinel —
a present-but-undefined field, which the repository's own
`testExtractFunction` rejects. -/
theorem amazon_empty_page_title_undefined :
    amazonExtract {} = .ok [("title", JVal.undefined), ("isPrime", JVal.jbool false),
      ("isDeal", JVal.jbool false)] := by
  with_unfolding_all rfl

/-! ## Claim C5 — merge semantics of the JSON-LD loops -/

/-- Setting `description` does not read back on `title`. -/
theorem tk_desc (d : ExtractedData) (v : JVal) :
    dget (dset d "description" v) "title" = dget d "title" :=
  dget_dset_ne _ _ _ _ (by decide)

/-- Setting `brand` does not read back on `title`. -/
theorem tk_brand (d : ExtractedData) (v : JVal) :
    dget (dset d "brand" v) "title" = dget d "title" :=
  dget_dset_ne _ _ _ _ (by decide)

/-- Setting `imageUrl` does not read back on `title`. -/
theorem tk_image (d : ExtractedData) (v : JVal) :
    dget (dset d "imageUrl" v) "title" = dget d "title" :=
  dget_dset_ne _ _ _ _ (by decide)

/-- Setting `price` does not read back on `title`. -/
theorem tk_price (d : ExtractedData) (v : JVal) :
    dget (dset d "price" v) "title" = dget d "title" :=
  dget_dset_ne _ _ _ _ (by decide)

/-- Setting `inStock` does not read back on `title`. -/
theorem tk_instock (d : ExtractedData) (v : JVal) :
    dget (dset d "inStock" v) "title" = dget d "title" :=
  dget_dset_ne _ _ _ _ (by decide)

/-- Setting `rating` does not read back on `title`. -/
theorem tk_rating (d : ExtractedData) (v : JVal) :
    dget (dset d "rating" v) "title" = dget d "title" :=
  dget_dset_ne _ _ _ _ (by decide)

/-- Setting `reviewCount` does not read back on `title`. -/
theorem tk_review (d : ExtractedData) (v : JVal) :
    dget (dset d "reviewCount" v) "title" = dget d "title" :=
  dget_dset_ne _ _ _ _ (by decide)

/-- Setting `currency` does not read back on `title`. -/
theorem tk_currency (d : ExtractedData) (v : JVal) :
    dget (dset d "currency" v) "title" = dget d "title" :=
  dget_dset_ne _ _ _ _ (by decide)

/-- Setting `condition` does not read back on `title`. -/
theorem tk_condition (d : ExtractedData) (v : JVal) :
    dget (dset d "condition" v) "title" = dget d "title" :=
  dget_dset_ne _ _ _ _ (by decide)

/-- One Amazon JSON-LD iteration preserves a truthy `title` (the `||`
guard makes `title` fill-if-absent). -/
theorem amazonLdStep_keeps_title (d : ExtractedData) (ld : JVal) (d' : ExtractedData)
    (h : jtruthy (dget d "title") = true) (hstep : amazonLdStep d ld = .ok d') :
    dget d' "title" = dget d "title" := by
  cases ld with
  | null => simp [amazonLdStep, jmem, Bind.bind, Except.bind] at hstep
  | undefined => simp [amazonLdStep, jmem, Bind.bind, Except.bind] at hstep
  | obj fs =>
      simp only [amazonLdStep, jmem, Bind.bind, Except.bind, pure, Except.pure] at hstep
      repeat' split at hstep
      all_goals first
        | (injection hstep with h2; subst h2;
           simp [tk_desc, tk_brand, tk_image, tk_price, tk_instock, tk_rating, tk_review,
             jor, h, dset_dget_of_truthy _ _ h])
        | (exact absurd hstep (by simp))
  | jbool b =>
      simp [amazonLdStep, jmem, jeqStr, Bind.bind, Except.bind, pure, Except.pure] at hstep
      simp [hstep]
  | num n =>
      simp [amazonLdStep, jmem, jeqStr, Bind.bind, Except.bind, pure, Except.pure] at hstep
      simp [hstep]
  | str s =>
      simp [amazonLdStep, jmem, jeqStr, Bind.bind, Except.bind, pure, Except.pure] at hstep
      simp [hstep]
  | arr xs =>
      simp [amazonLdStep, jmem, jeqStr, Bind.bind, Except.bind, pure, Except.pure] at hstep
      simp [hstep]

/-- The Amazon JSON-LD loop preserves a truthy `title` across all
structured objects. -/
theorem amazonLdStage_keeps_title (lds : List JVal) :
    ∀ (d d' : ExtractedData), jtruthy (dget d "title") = true →
      amazonLdStage d lds = .ok d' → dget d' "title" = dget d "title" := by
  induction lds with
  | nil =>
      intro d d' h hstage
      simp only [amazonLdStage, pure, Except.pure] at hstage
      injection hstage with h2
      subst h2
      rfl
  | cons ld rest ih =>
      intro d d' h hstage
      simp only [amazonLdStage, Bind.bind, Except.bind] at hstage
      rcases hm : amazonLdStep d ld with e | dmid
      · rw [hm] at hstage
        exact absurd hstage (by simp)
      · rw [hm] at hstage
        have hd := amazonLdStep_keeps_title d ld dmid h hm
        have ht : jtruthy (dget dmid "title") = true := by rw [hd]; exact h
        rw [ih dmid d' ht hstage, hd]

/-- One eBay JSON-LD iteration on a recognized `Product` object
overwrites `title` with that object's `name`, whatever was there
before. -/
theorem ebayLdStep_title_overwrites (d : ExtractedData) (fs : List (String × JVal))
    (d' : ExtractedData) (ht : jeqStr (fieldLookup fs "@type") "Product" = true)
    (hstep : ebayLdStep d (.obj fs) = .ok d') :
    dget d' "title" = fieldLookup fs "name" := by
  simp only [ebayLdStep, jmem, Bind.bind, Except.bind, pure, Except.pure, ht, if_true] at hstep
  repeat' split at hstep
  all_goals first
    | (injection hstep with h2; subst h2;
       simp [tk_desc, tk_brand, tk_image, tk_price, tk_instock, tk_currency, tk_condition,
         dget_dset_self])
    | (exact absurd hstep (by simp))

/-- Claim C5, amended: the two JSON-LD loops do not share one merge rule.
The Amazon loop keeps an already-present (truthy) `title` — its `title`
and `description` are fill-if-absent — but the eBay loop assigns
unconditionally: every recognized `Product` object overwrites `title`
with its own `name`, so the last recognized object wins there (and the
Amazon loop behaves the same way for `brand`, `imageUrl`, `price`,
`inStock`, `rating` and `reviewCount`). -/
theorem ld_loop_merge_semantics :
    (∀ (lds : List JVal) (d d' : ExtractedData), jtruthy (dget d "title") = true →
      amazonLdStage d lds = .ok d' → dget d' "title" = dget d "title") ∧
    (∀ (d : ExtractedData) (fs : List (String × JVal)) (d' : ExtractedData),
      jeqStr (fieldLookup fs "@type") "Product" = true →
      ebayLdStep d (.obj fs) = .ok d' → dget d' "title" = fieldLookup fs "name") :=
  ⟨amazonLdStage_keeps_title, ebayLdStep_title_overwrites⟩

/-- A structured product object carrying only a name. -/
def ldProductNamed (s : String) : JVal :=
  .obj [("@type", .str "Product"), ("name", .str s)]

/-- Claim C5, counterexample: in the eBay loop the first `Product` sets
`title` to `"A"`, yet running the loop over two `Product` objects returns
`"B"` — the later object replaced a field already taken from an earlier
one; the Amazon loop does the same for `price` (`10` then `20` yields
`20`). -/
theorem ebay_ld_later_product_overwrites :
    (ebayLdStep [] (ldProductNamed "A")).map (fun d => dget d "title") =
      .ok (.str "A") ∧
    (ebayLdStage [] [ldProductNamed "A", ldProductNamed "B"]).map
        (fun d => dget d "title") = .ok (.str "B") ∧
    (amazonLdStage [] [ldProductPrice "10", ldProductPrice "20"]).map
        (fun d => dget d "price") = .ok (.num (.fin 20)) := by
  refine ⟨?_, ?_, ?_⟩ <;> with_unfolding_all rfl

/-- Claim C5, witness: the Amazon clause applied to a map already holding
a truthy title, run over one structured product; the eBay clause applied
to a `Product` object. -/
theorem ld_loop_merge_semantics_witness :
    dget [("title", JVal.str "T"), ("description", JVal.undefined), ("brand", JVal.undefined),
        ("imageUrl", JVal.undefined), ("price", JVal.num (JNum.fin 10))] "title" =
      dget [("title", JVal.str "T")] "title" ∧
    dget [("title", JVal.str "B"), ("brand", JVal.undefined), ("description", JVal.undefined),
        ("imageUrl", JVal.undefined)] "title" =
      fieldLookup [("@type", JVal.str "Product"), ("name", JVal.str "B")] "name" :=
  ⟨ld_loop_merge_semantics.1 [ldProductPrice "10"] [("title", JVal.str "T")] _
      (by decide) (by with_unfolding_all rfl),
    ld_loop_merge_semantics.2 [] [("@type", JVal.str "Product"), ("name", JVal.str "B")] _
      (by decide) (by with_unfolding_all rfl)⟩

/-! ## Claim C7 — duplicate identities make `validateAllRecipes` fail -/

/-- Count read off the insertion-ordered count map (`slugs.get(s) || 0`). -/
def lkCount (l : List (String × ℕ)) (s : String) : ℕ :=
  match l.find? (fun kv => kv.1 = s) with
  | some kv => kv.2
  | none => 0

/-- Number of recipes whose effective (truthy) slug is `s`. -/
def slugOccurrences (rs : List LRecipe) (s : String) : ℕ :=
  (rs.filter (fun r => effSlug r = some s)).length

/-- One bump adds one to exactly the bumped key's count. -/
theorem lkCount_bump (l : List (String × ℕ)) (t s : String) :
    lkCount (bumpSlug l t) s = lkCount l s + (if t = s then 1 else 0) := by
  induction l with
  | nil =>
      by_cases h : t = s <;> simp [bumpSlug, lkCount, List.find?, h]
  | cons kc rest ih =>
      obtain ⟨k, c⟩ := kc
      by_cases hk : k = t
      · subst hk
        by_cases hs : k = s
        · subst hs
          simp [bumpSlug, lkCount, List.find?]
        · simp [bumpSlug, lkCount, List.find?, hs,
            show (k = s) = False from by simp [hs]]
      · by_cases hs : k = s
        · subst hs
          have hts : ¬t = k := fun h => hk h.symm
          simp [bumpSlug, lkCount, List.find?, hk, hts]
        · simp only [bumpSlug, if_neg hk]
          simp [lkCount, List.find?, hs] at ih ⊢
          exact ih

/-- The built count map counts the effective-slug occurrences. -/
theorem lkCount_build (rs : List LRecipe) (s : String) :
    ∀ acc, lkCount (buildCounts rs acc) s = lkCount acc s + slugOccurrences rs s := by
  induction rs with
  | nil => intro acc; simp [buildCounts, slugOccurrences]
  | cons r rest ih =>
      intro acc
      rcases he : effSlug r with _ | t
      · simp only [buildCounts, he]
        rw [ih]
        simp [slugOccurrences, he]
      · simp only [buildCounts, he]
        rw [ih, lkCount_bump]
        by_cases hts : t = s
        · subst hts
          simp [slugOccurrences, he]
          omega
        · simp [slugOccurrences, he, hts]

/-- Key distinctness of a count map. -/
def distinctKeys (l : List (String × ℕ)) : Prop :=
  l.Pairwise (fun a b => a.1 ≠ b.1)

/-- Every entry of a bumped map carries an old key or the bumped key. -/
theorem mem_bumpSlug (l : List (String × ℕ)) (t : String) :
    ∀ x ∈ bumpSlug l t, x.1 = t ∨ ∃ y ∈ l, x.1 = y.1 := by
  induction l with
  | nil =>
      intro x hx
      simp only [bumpSlug, List.mem_singleton] at hx
      subst hx
      exact Or.inl rfl
  | cons kc rest ih =>
      obtain ⟨k, c⟩ := kc
      intro x hx
      by_cases hk : k = t
      · simp only [bumpSlug, if_pos hk, List.mem_cons] at hx
        rcases hx with rfl | hx'
        · exact Or.inl hk
        · exact Or.inr ⟨x, List.mem_cons_of_mem _ hx', rfl⟩
      · simp only [bumpSlug, if_neg hk, List.mem_cons] at hx
        rcases hx with rfl | hx'
        · exact Or.inr ⟨(k, c), List.mem_cons_self _ _, rfl⟩
        · rcases ih x hx' with h | ⟨y, hy, hxy⟩
          · exact Or.inl h
          · exact Or.inr ⟨y, List.mem_cons_of_mem _ hy, hxy⟩

/-- Bumping preserves key distinctness. -/
theorem distinctKeys_bump (l : List (String × ℕ)) (t : String)
    (h : distinctKeys l) : distinctKeys (bumpSlug l t) := by
  induction l with
  | nil => simp [bumpSlug, distinctKeys]
  | cons kc rest ih =>
      obtain ⟨k, c⟩ := kc
      rw [distinctKeys, List.pairwise_cons] at h
      obtain ⟨hhead, htail⟩ := h
      by_cases hk : k = t
      · simp only [bumpSlug, if_pos hk]
        rw [distinctKeys, List.pairwise_cons]
        exact ⟨hhead, htail⟩
      · simp only [bumpSlug, if_neg hk]
        rw [distinctKeys, List.pairwise_cons]
        refine ⟨?_, ih htail⟩
        intro y hy
        rcases mem_bumpSlug rest t y hy with h1 | ⟨z, hz, hyz⟩
        · rw [h1]; exact fun hkt => hk hkt
        · rw [hyz]; exact hhead z hz

/-- Building the count map preserves key distinctness. -/
theorem distinctKeys_build (rs : List LRecipe) :
    ∀ acc, distinctKeys acc → distinctKeys (buildCounts rs acc) := by
  induction rs with
  | nil => intro acc h; simpa [buildCounts] using h
  | cons r rest ih =>
      intro acc h
      rcases he : effSlug r with _ | t
      · simp only [buildCounts, he]
        exact ih _ h
      · simp only [buildCounts, he]
        exact ih _ (distinctKeys_bump _ _ h)

/-- On a key-distinct map, a nonzero looked-up count is an actual entry. -/
theorem mem_of_lkCount (l : List (String × ℕ)) (s : String) (n : ℕ)
    (hdk : distinctKeys l) (hlk : lkCount l s = n) (hn : 0 < n) : (s, n) ∈ l := by
  induction l with
  | nil => simp [lkCount, List.find?] at hlk; omega
  | cons kc rest ih =>
      obtain ⟨k, c⟩ := kc
      rw [distinctKeys, List.pairwise_cons] at hdk
      by_cases hk : k = s
      · subst hk
        simp [lkCount, List.find?] at hlk
        simp [hlk]
      · simp [lkCount, List.find?, hk] at hlk
        right
        exact ih hdk.2 (by simpa [lkCount] using hlk)

/-- A nonempty list is not `isEmpty`. -/
theorem isEmpty_false_of_ne_nil {α : Type} {l : List α} (h : l ≠ []) :
    l.isEmpty = false := by
  cases l with
  | nil => exact absurd rfl h
  | cons a l => rfl

/-- An over-counted entry produces its duplicate-slug error. -/
theorem dupSlugError_mem (counts : List (String × ℕ)) (s : String) (n : ℕ)
    (hmem : (s, n) ∈ counts) (hn : 1 < n) :
    dupSlugError s n ∈ dupSlugErrors counts := by
  rw [dupSlugErrors, List.mem_filterMap]
  exact ⟨(s, n), hmem, by simp [hn]⟩

/-- A pair of recipes that both carry metadata cannot make the overlap
check throw. -/
theorem overlapPair_ok (r1 r2 : LRecipe) (h1 : r1.meta.isSome = true)
    (h2 : r2.meta.isSome = true) : ∃ ws, overlapPair r1 r2 = .ok ws := by
  rcases hm1 : r1.meta with _ | m1
  · rw [hm1] at h1; simp at h1
  · rcases hm2 : r2.meta with _ | m2
    · rw [hm2] at h2; simp at h2
    · simp only [overlapPair, metaSlugStrict, hm1, hm2, Bind.bind, Except.bind,
        pure, Except.pure]
      split
      · exact ⟨_, rfl⟩
      · rcases hre : m1.richExamples with _ | exs
        · simp only [hre]
          exact ⟨_, rfl⟩
        · simp only [hre]
          exact ⟨_, rfl⟩

/-- The inner overlap row over metadata-carrying recipes succeeds. -/
theorem overlapRow_ok (r1 : LRecipe) (h1 : r1.meta.isSome = true)
    (rest : List LRecipe) :
    ∀ acc, (∀ r ∈ rest, (LRecipe.meta r).isSome = true) →
      ∃ ws, (rest.foldlM (fun acc r2 => do
        let w ← overlapPair r1 r2
        pure (acc ++ w)) acc : Except String (List ValidationError)) = .ok ws := by
  induction rest with
  | nil => intro acc _; exact ⟨acc, rfl⟩
  | cons r2 rest2 ih =>
      intro acc hall
      obtain ⟨w, hw⟩ := overlapPair_ok r1 r2 h1 (hall r2 (List.mem_cons_self r2 rest2))
      obtain ⟨ws, hws⟩ := ih (acc ++ w) (fun r hr => hall r (List.mem_cons_of_mem r2 hr))
      refine ⟨ws, ?_⟩
      simp only [List.foldlM, Bind.bind, Except.bind, hw, pure, Except.pure]
      simp only [List.foldlM, Bind.bind, Except.bind, pure, Except.pure] at hws
      exact hws

/-- The overlap loop over metadata-carrying recipes succeeds. -/
theorem overlapWarnings_ok (rs : List LRecipe)
    (hall : ∀ r ∈ rs, (LRecipe.meta r).isSome = true) :
    ∃ ws, overlapWarnings rs = .ok ws := by
  induction rs with
  | nil => exact ⟨[], rfl⟩
  | cons r1 rest ih =>
      obtain ⟨row, hrow⟩ := overlapRow_ok r1 (hall r1 (List.mem_cons_self r1 rest)) rest []
        (fun r hr => hall r (List.mem_cons_of_mem r1 hr))
      obtain ⟨rec, hrec⟩ := ih (fun r hr => hall r (List.mem_cons_of_mem r1 hr))
      refine ⟨row ++ rec, ?_⟩
      simp only [overlapWarnings, Bind.bind, Except.bind, pure, Except.pure]
      simp only [Bind.bind, Except.bind, pure, Except.pure] at hrow
      rw [hrow, hrec]

/-- Claim C7: for a recipe list (of well-typed recipes, i.e. each carries
a `meta` object) in which some identity occurs `n > 1` times,
`validateAllRecipes` returns a result containing the duplicate-identity
error naming that identity and the count `n`, and its `valid` flag is
`false`. -/
theorem validateAllRecipes_duplicate_slug_error (recipes : List LRecipe) (s : String)
    (n : ℕ) (hn : 1 < n) (hcount : slugOccurrences recipes s = n)
    (hmeta : ∀ r ∈ recipes, (LRecipe.meta r).isSome = true) :
    ∃ res, validateAllRecipes recipes = .ok res ∧
      dupSlugError s n ∈ res.errors ∧ res.valid = false := by
  obtain ⟨ws, hws⟩ := overlapWarnings_ok recipes hmeta
  have hlk : lkCount (buildCounts recipes []) s = n := by
    rw [lkCount_build]
    simpa [lkCount, List.find?] using hcount
  have hdk : distinctKeys (buildCounts recipes []) :=
    distinctKeys_build recipes [] (by simp [distinctKeys])
  have hmem := mem_of_lkCount _ s n hdk hlk (by omega)
  have hdup := dupSlugError_mem _ s n hmem hn
  have herr : dupSlugError s n ∈
      ((recipes.map validateRecipe).map (fun r => r.errors)).flatten ++
        dupSlugErrors (buildCounts recipes []) :=
    List.mem_append_right _ hdup
  have hne : (((recipes.map validateRecipe).map (fun r => r.errors)).flatten ++
      dupSlugErrors (buildCounts recipes [])) ≠ [] :=
    List.ne_nil_of_mem herr
  rcases hres : validateAllRecipes recipes with e | res
  · exfalso
    simp only [validateAllRecipes, Bind.bind, Except.bind, hws, pure, Except.pure] at hres
    exact absurd hres (by simp)
  · simp only [validateAllRecipes, Bind.bind, Except.bind, hws, pure, Except.pure] at hres
    injection hres with hres'
    refine ⟨res, rfl, ?_, ?_⟩
    · rw [← hres']
      exact herr
    · rw [← hres']
      exact isEmpty_false_of_ne_nil hne

/-- Pair of well-formed-enough recipes sharing the slug `dupe`. -/
def dupRecipe : LRecipe :=
  { meta := some { slug := some "dupe", name := some "Dupe", description := some "d",
                   icon := some "i", category := some "other", maintainers := some ["m"] },
    fields := some [("title", { type := some "string", label := some "Title" })] }

/-- Claim C7, witness: two recipes sharing the slug `dupe` yield the
duplicate error with count `2` and an invalid result. -/
theorem validateAllRecipes_duplicate_slug_error_witness :
    slugOccurrences [dupRecipe, dupRecipe] "dupe" = 2 ∧
    ∃ res, validateAllRecipes [dupRecipe, dupRecipe] = .ok res ∧
      dupSlugError "dupe" 2 ∈ res.errors ∧ res.valid = false :=
  ⟨by decide,
    validateAllRecipes_duplicate_slug_error [dupRecipe, dupRecipe] "dupe" 2
      (by decide) (by decide) (by decide)⟩

end Recipes
